import Mathlib

/-!
Shallow embedding of the simulation core of the `doggo-3d` repository
(seeded procedural terrain, fixed-timestep physics stepper, character
controller jump timing, and the rejection-sampling placement engines),
together with theorems settling the specification claims.

Modelling conventions:
* JavaScript 32-bit integer operations (`|0`, `>>>`, `^`, `Math.imul`) are
  modelled on `Nat` modulo `2^32`; the bit patterns agree with the JS
  semantics, and the float division by `4294967296` is exact, so `mulberry32`
  is modelled exactly.
* JavaScript doubles are modelled by exact arithmetic: `ℚ` where the source
  only adds, subtracts, multiplies, divides and compares, and `ℝ` where the
  source calls transcendental functions (`Math.atan`, `Math.sqrt`,
  `Math.cos`, `Math.sin`, `Math.pow`).  Floating-point rounding is not
  modelled.
* `Math.random()` (ambient, per-run entropy) is passed in explicitly, either
  as a single draw or as a stream `ℕ → ℚ`/`ℕ → ℝ` of draws.
* `while` loops are modelled by fuel recursion where the source bounds the
  number of iterations syntactically (attempt caps), and by well-founded
  recursion where the source argues termination semantically (the physics
  accumulator loop).
-/

namespace Doggo

/-! ## Seeded PRNG: `mulberry32` (identical copies in Terrain.ts, the decor
file and the berries file). -/

/-- JS `Math.imul`: 32-bit wrapping multiplication (bit pattern, unsigned
representation). -/
def imul32 (x y : ℕ) : ℕ := (x * y) % 2 ^ 32

/-- One draw of the `mulberry32` generator: given the 32-bit state, returns
the next state and the float value `>>> 0 ... / 4294967296`, which lies in
`[0, 1)` and is an exact rational. -/
def mulberryNext (a : ℕ) : ℕ × ℚ :=
  let a' := (a + 0x6d2b79f5) % 2 ^ 32
  let t1 := imul32 (a'.xor (a' >>> 15)) (Nat.lor 1 a')
  let t2 := ((t1 + imul32 (t1.xor (t1 >>> 7)) (Nat.lor 61 t1)) % 2 ^ 32).xor t1
  let r := t2.xor (t2 >>> 14)
  (a', (r : ℚ) / 2 ^ 32)

/-- `let a = seed | 0` — the initial 32-bit state from an integer seed. -/
def seedInit (seed : ℤ) : ℕ := (seed % 2 ^ 32).toNat

theorem imul32_lt (x y : ℕ) : imul32 x y < 2 ^ 32 :=
  Nat.mod_lt _ (by norm_num)

theorem mulberryNext_state_lt (a : ℕ) : (mulberryNext a).1 < 2 ^ 32 :=
  Nat.mod_lt _ (by norm_num)

theorem mulberry_val_nonneg (a : ℕ) : 0 ≤ (mulberryNext a).2 := by
  unfold mulberryNext
  positivity

theorem mulberry_val_lt_one (a : ℕ) : (mulberryNext a).2 < 1 := by
  unfold mulberryNext
  rw [div_lt_one (by positivity)]
  have hlt : ∀ x y : ℕ, x < 2 ^ 32 → y < 2 ^ 32 → x.xor y < 2 ^ 32 := fun x y hx hy =>
    Nat.xor_lt_two_pow hx hy
  set a' := (a + 0x6d2b79f5) % 2 ^ 32 with ha'
  set t1 := imul32 (a'.xor (a' >>> 15)) (Nat.lor 1 a') with ht1
  set t2 := ((t1 + imul32 (t1.xor (t1 >>> 7)) (Nat.lor 61 t1)) % 2 ^ 32).xor t1 with ht2
  have h2 : t2 < 2 ^ 32 := hlt _ _ (Nat.mod_lt _ (by norm_num)) (imul32_lt _ _)
  have htt : t2.xor (t2 >>> 14) < 2 ^ 32 := by
    apply hlt _ _ h2
    calc t2 >>> 14 ≤ t2 := by
          rw [Nat.shiftRight_eq_div_pow]; exact Nat.div_le_self _ _
      _ < 2 ^ 32 := h2
  exact_mod_cast htt

/-! ## Physics stepper (`Physics.ts`): fixed-timestep accumulator. -/

namespace Physics

/-- `readonly fixedTimeStep = 1 / 60`. -/
def fixedTimeStep : ℚ := 1 / 60

/-- The inner `while (this.accumulator >= this.fixedTimeStep)` loop: returns
the final accumulator and the number of `world.step()` calls made. -/
def stepLoop (acc : ℚ) : ℚ × ℕ :=
  if h : fixedTimeStep ≤ acc then
    let r := stepLoop (acc - fixedTimeStep)
    (r.1, r.2 + 1)
  else
    (acc, 0)
termination_by (⌊acc * 60⌋).toNat
decreasing_by
  have h1 : (1 : ℚ) ≤ acc * 60 := by
    have : (1 : ℚ) / 60 ≤ acc := h
    linarith
  have hfloor : ⌊(acc - fixedTimeStep) * 60⌋ = ⌊acc * 60⌋ - 1 := by
    have : (acc - fixedTimeStep) * 60 = acc * 60 - 1 := by
      unfold fixedTimeStep; ring
    rw [this]
    exact_mod_cast Int.floor_sub_int (acc * 60) 1
  have hge : (1 : ℤ) ≤ ⌊acc * 60⌋ := Int.le_floor.mpr (by exact_mod_cast h1)
  rw [hfloor]
  omega

/-- `Physics.step(dt)`: clamp `dt` to `0.25`, add to the accumulator, then
drain in fixed steps.  Returns the leftover accumulator and the number of
world advances. -/
def step (acc dt : ℚ) : ℚ × ℕ := stepLoop (acc + min dt (1 / 4))

theorem stepLoop_spec (acc : ℚ) (hacc : 0 ≤ acc) :
    0 ≤ (stepLoop acc).1 ∧ (stepLoop acc).1 < fixedTimeStep ∧
      ((stepLoop acc).2 : ℚ) * fixedTimeStep + (stepLoop acc).1 = acc := by
  induction acc using stepLoop.induct with
  | case1 acc h ih =>
    have hrec := ih (by unfold fixedTimeStep at h ⊢; linarith)
    rw [stepLoop, dif_pos h]
    obtain ⟨h1, h2, h3⟩ := hrec
    refine ⟨h1, h2, ?_⟩
    push_cast
    linarith
  | case2 acc h =>
    rw [stepLoop, dif_neg h]
    exact ⟨hacc, lt_of_not_le h, by simp⟩

theorem step_spec (acc dt : ℚ) (hacc : 0 ≤ acc) (hdt : 0 ≤ dt) :
    0 ≤ (step acc dt).1 ∧ (step acc dt).1 < fixedTimeStep ∧
      ((step acc dt).2 : ℚ) * fixedTimeStep + (step acc dt).1 = acc + min dt (1 / 4) := by
  have h0 : 0 ≤ acc + min dt (1 / 4) := by
    have : (0 : ℚ) ≤ min dt (1 / 4) := le_min hdt (by norm_num)
    linarith
  exact stepLoop_spec _ h0

theorem stepLoop_zero : stepLoop 0 = (0, 0) := by
  rw [stepLoop]
  norm_num [fixedTimeStep]

theorem step_zero_fixed : step 0 fixedTimeStep = (0, 1) := by
  unfold step
  have hmin : min fixedTimeStep (1 / 4 : ℚ) = fixedTimeStep := by
    unfold fixedTimeStep; norm_num
  rw [hmin]
  rw [stepLoop]
  rw [dif_pos (by norm_num : fixedTimeStep ≤ 0 + fixedTimeStep)]
  simp [stepLoop_zero]

theorem step_count_le_15 (acc dt : ℚ) (hacc : 0 ≤ acc) (hlt : acc < fixedTimeStep) :
    (step acc dt).2 ≤ 15 := by
  by_cases h0 : 0 ≤ acc + min dt (1 / 4)
  · obtain ⟨hl, -, heq⟩ := stepLoop_spec (acc + min dt (1 / 4)) h0
    have hmin : min dt (1 / 4 : ℚ) ≤ 1 / 4 := min_le_right _ _
    have hsum : acc + min dt (1 / 4) < 16 / 60 := by
      unfold fixedTimeStep at hlt; linarith
    have hn : ((step acc dt).2 : ℚ) * fixedTimeStep ≤ acc + min dt (1 / 4) := by
      unfold step at *; linarith
    have h16 : ((step acc dt).2 : ℚ) < 16 := by
      unfold fixedTimeStep at hn
      nlinarith
    have h16' : (step acc dt).2 < 16 := by exact_mod_cast h16
    omega
  · unfold step
    rw [stepLoop, dif_neg (by unfold fixedTimeStep; intro hc; apply h0; linarith)]
    norm_num

end Physics

/-- **C3.** `Physics.step(dt)` adds `min(dt, 0.25)` to the accumulator and
drains it one fixed step (1/60 s) at a time while it is `≥ 1/60`, leaving a
leftover in `[0, 1/60)`; from a zero accumulator, `step(1/60)` performs
exactly one world advance with zero leftover (and repeated calls keep the
accumulator at zero), a single `step(10.0)` performs exactly 15 = at most 15
world advances, and from any in-range accumulator a single call never
performs more than 15 advances.  The inner loop terminates (the drain loop
is a total function). -/
theorem physics_step_accumulator_drain :
    (∀ acc dt : ℚ, 0 ≤ acc → 0 ≤ dt →
      0 ≤ (Physics.step acc dt).1 ∧ (Physics.step acc dt).1 < Physics.fixedTimeStep ∧
        ((Physics.step acc dt).2 : ℚ) * Physics.fixedTimeStep + (Physics.step acc dt).1
          = acc + min dt (1 / 4)) ∧
    Physics.step 0 Physics.fixedTimeStep = (0, 1) ∧
    (∀ n : ℕ, (fun a => (Physics.step a Physics.fixedTimeStep).1)^[n] 0 = 0) ∧
    Physics.step 0 10 = (0, 15) ∧
    (∀ acc dt : ℚ, 0 ≤ acc → acc < Physics.fixedTimeStep → (Physics.step acc dt).2 ≤ 15) := by
  refine ⟨Physics.step_spec, Physics.step_zero_fixed, ?_, ?_, Physics.step_count_le_15⟩
  · intro n
    induction n with
    | zero => simp
    | succ k ih =>
      rw [Function.iterate_succ_apply]
      simpa [Physics.step_zero_fixed] using ih
  · obtain ⟨hl, hlt, heq⟩ := Physics.step_spec 0 10 le_rfl (by norm_num)
    have hmin : min (10 : ℚ) (1 / 4) = 1 / 4 := by norm_num
    rw [hmin] at heq
    set n := (Physics.step 0 10).2 with hn
    set l := (Physics.step 0 10).1 with hlv
    have h15 : n = 15 := by
      unfold Physics.fixedTimeStep at heq hlt
      have hub : (n : ℚ) ≤ 15 := by nlinarith
      have hlb : (14 : ℚ) < n := by nlinarith
      have h1 : n ≤ 15 := by exact_mod_cast hub
      have h2 : 14 < n := by exact_mod_cast hlb
      omega
    have hl0 : l = 0 := by
      rw [h15] at heq
      unfold Physics.fixedTimeStep at heq
      push_cast at heq
      linarith
    have : Physics.step 0 10 = ((Physics.step 0 10).1, (Physics.step 0 10).2) := rfl
    rw [this, ← hlv, ← hn, hl0, h15]

/-- Witness for C3 at a concrete accumulator/frame time. -/
theorem physics_step_accumulator_drain_witness :
    (0 ≤ (1 / 120 : ℚ) ∧ 0 ≤ (2 : ℚ) ∧
      0 ≤ (Physics.step (1 / 120) 2).1 ∧
      (Physics.step (1 / 120) 2).1 < Physics.fixedTimeStep ∧
      ((Physics.step (1 / 120) 2).2 : ℚ) * Physics.fixedTimeStep + (Physics.step (1 / 120) 2).1
        = 1 / 120 + min (2 : ℚ) (1 / 4)) ∧
    (1 / 120 : ℚ) < Physics.fixedTimeStep ∧ (Physics.step (1 / 120) 2).2 ≤ 15 := by
  have h1 : (0 : ℚ) ≤ 1 / 120 := by norm_num
  have h2 : (0 : ℚ) ≤ 2 := by norm_num
  have h3 : (1 / 120 : ℚ) < Physics.fixedTimeStep := by unfold Physics.fixedTimeStep; norm_num
  obtain ⟨hmain, -, -, -, hcap⟩ := physics_step_accumulator_drain
  obtain ⟨ha, hb, hc⟩ := hmain (1 / 120) 2 h1 h2
  exact ⟨⟨h1, h2, ha, hb, hc⟩, h3, hcap (1 / 120) 2 h1 h3⟩

/-! ## Terrain (`Terrain.ts`): heightfield query and generation terms. -/

/-- `TerrainConfig` (defaults: 513, 1000, 1000, 55, 1337, 120, 140). -/
structure TerrainConfig where
  size : ℕ
  width : ℚ
  depth : ℚ
  maxHeight : ℚ
  seed : ℤ
  borderWidth : ℚ
  borderHeight : ℚ

/-- `clampInt(value, min, max) = Math.min(max, Math.max(min, value))`,
used on the (floored, hence integer) grid indices. -/
def clampInt (v lo hi : ℤ) : ℤ := min hi (max lo v)

namespace Terrain

/-- The fractional grid x-coordinate `gx = (x + width/2) / stepX` with
`stepX = width / (size - 1)`. -/
def gxQ (cfg : TerrainConfig) (x : ℚ) : ℚ :=
  (x + cfg.width / 2) / (cfg.width / ((cfg.size : ℚ) - 1))

/-- The fractional grid z-coordinate `gz = (z + depth/2) / stepZ` with
`stepZ = depth / (size - 1)`. -/
def gzQ (cfg : TerrainConfig) (z : ℚ) : ℚ :=
  (z + cfg.depth / 2) / (cfg.depth / ((cfg.size : ℚ) - 1))

/-- `Terrain.getHeightAt(x, z)`: convert world coordinates to fractional
grid coordinates, clamp the four surrounding indices into `[0, size-1]`,
and bilinearly interpolate the four corner heights (the heightfield is
stored column-major: entry `x0 * size + z0`). -/
def getHeightAt (cfg : TerrainConfig) (heights : List ℚ) (x z : ℚ) : ℚ :=
  let gx := gxQ cfg x
  let gz := gzQ cfg z
  let ix := ⌊gx⌋
  let iz := ⌊gz⌋
  let fx := gx - ix
  let fz := gz - iz
  let x0 := clampInt ix 0 ((cfg.size : ℤ) - 1)
  let x1 := clampInt (ix + 1) 0 ((cfg.size : ℤ) - 1)
  let z0 := clampInt iz 0 ((cfg.size : ℤ) - 1)
  let z1 := clampInt (iz + 1) 0 ((cfg.size : ℤ) - 1)
  let h00 := heights.getD (x0 * cfg.size + z0).toNat 0
  let h10 := heights.getD (x1 * cfg.size + z0).toNat 0
  let h01 := heights.getD (x0 * cfg.size + z1).toNat 0
  let h11 := heights.getD (x1 * cfg.size + z1).toNat 0
  let hx0 := h00 + (h10 - h00) * fx
  let hx1 := h01 + (h11 - h01) * fx
  hx0 + (hx1 - hx0) * fz

theorem clampInt_mem (v : ℤ) (hi : ℤ) (hhi : 0 ≤ hi) :
    0 ≤ clampInt v 0 hi ∧ clampInt v 0 hi ≤ hi := by
  unfold clampInt
  omega

/-- The flattened index of two clamped grid indices stays inside the
`size * size` allocation. -/
theorem clamped_flat_index_lt (v w : ℤ) (size : ℕ) (hsize : 1 ≤ size) :
    ((clampInt v 0 ((size : ℤ) - 1)) * size + clampInt w 0 ((size : ℤ) - 1)).toNat
      < size * size := by
  have hs1 : (0 : ℤ) ≤ (size : ℤ) - 1 := by omega
  obtain ⟨hv0, hv1⟩ := clampInt_mem v ((size : ℤ) - 1) hs1
  obtain ⟨hw0, hw1⟩ := clampInt_mem w ((size : ℤ) - 1) hs1
  have hmul : clampInt v 0 ((size : ℤ) - 1) * size ≤ ((size : ℤ) - 1) * size :=
    mul_le_mul_of_nonneg_right hv1 (by exact_mod_cast Nat.zero_le size)
  have hlt : clampInt v 0 ((size : ℤ) - 1) * size + clampInt w 0 ((size : ℤ) - 1)
      < (size : ℤ) * size := by nlinarith
  have hcast : ((size * size : ℕ) : ℤ) = (size : ℤ) * size := by push_cast; ring
  rw [← hcast] at hlt
  have hnn : 0 ≤ clampInt v 0 ((size : ℤ) - 1) * size + clampInt w 0 ((size : ℤ) - 1) := by
    have := mul_nonneg hv0 (by exact_mod_cast Nat.zero_le size : (0 : ℤ) ≤ size)
    omega
  omega

theorem getHeightAt_take (cfg : TerrainConfig) (heights : List ℚ) (x z : ℚ)
    (hsize : 1 ≤ cfg.size) :
    getHeightAt cfg heights x z
      = getHeightAt cfg (heights.take (cfg.size * cfg.size)) x z := by
  have hgetD : ∀ (i : ℕ), i < cfg.size * cfg.size →
      (heights.take (cfg.size * cfg.size)).getD i 0 = heights.getD i 0 := by
    intro i hi
    simp only [List.getD_eq_getElem?_getD]
    rw [List.getElem?_take_of_lt hi]
  unfold getHeightAt
  simp only []
  rw [hgetD _ (clamped_flat_index_lt _ _ _ hsize),
      hgetD _ (clamped_flat_index_lt _ _ _ hsize),
      hgetD _ (clamped_flat_index_lt _ _ _ hsize),
      hgetD _ (clamped_flat_index_lt _ _ _ hsize)]

theorem gxQ_ge (cfg : TerrainConfig) (x : ℚ) (hsize : 2 ≤ cfg.size) (hw : 0 < cfg.width)
    (hx : cfg.width / 2 ≤ x) : (cfg.size : ℚ) - 1 ≤ gxQ cfg x := by
  unfold gxQ
  have hs : (2 : ℚ) ≤ (cfg.size : ℚ) := by exact_mod_cast hsize
  have hstep : 0 < cfg.width / ((cfg.size : ℚ) - 1) := div_pos hw (by linarith)
  rw [le_div_iff hstep]
  have hne : ((cfg.size : ℚ) - 1) ≠ 0 := by linarith
  have heq : ((cfg.size : ℚ) - 1) * (cfg.width / ((cfg.size : ℚ) - 1)) = cfg.width := by
    field_simp
  rw [heq]
  linarith

theorem gxQ_half (cfg : TerrainConfig) (hsize : 2 ≤ cfg.size) (hw : 0 < cfg.width) :
    gxQ cfg (cfg.width / 2) = (cfg.size : ℚ) - 1 := by
  unfold gxQ
  have hs : (2 : ℚ) ≤ (cfg.size : ℚ) := by exact_mod_cast hsize
  have hne : ((cfg.size : ℚ) - 1) ≠ 0 := by linarith
  have hwne : cfg.width ≠ 0 := ne_of_gt hw
  field_simp

theorem gxQ_le_zero (cfg : TerrainConfig) (x : ℚ) (hsize : 2 ≤ cfg.size) (hw : 0 < cfg.width)
    (hx : x ≤ -(cfg.width / 2)) : gxQ cfg x ≤ 0 := by
  unfold gxQ
  have hs : (2 : ℚ) ≤ (cfg.size : ℚ) := by exact_mod_cast hsize
  have hstep : 0 < cfg.width / ((cfg.size : ℚ) - 1) := div_pos hw (by linarith)
  apply div_nonpos_of_nonpos_of_nonneg
  · linarith
  · linarith

theorem gxQ_neg_half (cfg : TerrainConfig) : gxQ cfg (-(cfg.width / 2)) = 0 := by
  unfold gxQ
  rw [neg_add_cancel, zero_div]

theorem getHeightAt_collapse_hi_x (cfg : TerrainConfig) (hs : List ℚ) (x z : ℚ)
    (hsize : 2 ≤ cfg.size) (hw : 0 < cfg.width) (hx : cfg.width / 2 ≤ x) :
    getHeightAt cfg hs x z = getHeightAt cfg hs (cfg.width / 2) z := by
  have hge := gxQ_ge cfg x hsize hw hx
  have hs2 : (2 : ℤ) ≤ (cfg.size : ℤ) := by exact_mod_cast hsize
  have hfl : (cfg.size : ℤ) - 1 ≤ ⌊gxQ cfg x⌋ := by
    apply Int.le_floor.mpr
    push_cast
    linarith
  have hx0 : clampInt ⌊gxQ cfg x⌋ 0 ((cfg.size : ℤ) - 1) = (cfg.size : ℤ) - 1 := by
    unfold clampInt; omega
  have hx1 : clampInt (⌊gxQ cfg x⌋ + 1) 0 ((cfg.size : ℤ) - 1) = (cfg.size : ℤ) - 1 := by
    unfold clampInt; omega
  have hfl' : ⌊gxQ cfg (cfg.width / 2)⌋ = (cfg.size : ℤ) - 1 := by
    rw [gxQ_half cfg hsize hw]
    have : ((cfg.size : ℚ) - 1) = (((cfg.size : ℤ) - 1 : ℤ) : ℚ) := by push_cast; ring
    rw [this, Int.floor_intCast]
  have hx0' : clampInt ⌊gxQ cfg (cfg.width / 2)⌋ 0 ((cfg.size : ℤ) - 1)
      = (cfg.size : ℤ) - 1 := by rw [hfl']; unfold clampInt; omega
  have hx1' : clampInt (⌊gxQ cfg (cfg.width / 2)⌋ + 1) 0 ((cfg.size : ℤ) - 1)
      = (cfg.size : ℤ) - 1 := by rw [hfl']; unfold clampInt; omega
  unfold getHeightAt
  simp only []
  rw [hx0, hx1, hx0', hx1']
  ring

theorem getHeightAt_collapse_lo_x (cfg : TerrainConfig) (hs : List ℚ) (x z : ℚ)
    (hsize : 2 ≤ cfg.size) (hw : 0 < cfg.width) (hx : x ≤ -(cfg.width / 2)) :
    getHeightAt cfg hs x z = getHeightAt cfg hs (-(cfg.width / 2)) z := by
  rcases eq_or_lt_of_le hx with heq | hlt
  · rw [heq]
  · have hle := gxQ_le_zero cfg x hsize hw hx
    have hltq : gxQ cfg x < 0 := by
      have := gxQ_neg_half cfg
      unfold gxQ at *
      have hs : (2 : ℚ) ≤ (cfg.size : ℚ) := by exact_mod_cast hsize
      have hstep : 0 < cfg.width / ((cfg.size : ℚ) - 1) := div_pos hw (by linarith)
      apply div_neg_of_neg_of_pos _ hstep
      linarith
    have hs2 : (2 : ℤ) ≤ (cfg.size : ℤ) := by exact_mod_cast hsize
    have hfl : ⌊gxQ cfg x⌋ ≤ -1 := by
      by_contra hcon
      push_neg at hcon
      have h0 : (0 : ℤ) ≤ ⌊gxQ cfg x⌋ := by omega
      have := Int.floor_nonneg.mp h0
      linarith
    have hx0 : clampInt ⌊gxQ cfg x⌋ 0 ((cfg.size : ℤ) - 1) = 0 := by
      unfold clampInt; omega
    have hx1 : clampInt (⌊gxQ cfg x⌋ + 1) 0 ((cfg.size : ℤ) - 1) = 0 := by
      unfold clampInt; omega
    have hfl' : ⌊gxQ cfg (-(cfg.width / 2))⌋ = 0 := by
      rw [gxQ_neg_half cfg, Int.floor_zero]
    have hx0' : clampInt ⌊gxQ cfg (-(cfg.width / 2))⌋ 0 ((cfg.size : ℤ) - 1) = 0 := by
      rw [hfl']; unfold clampInt; omega
    have hx1' : clampInt (⌊gxQ cfg (-(cfg.width / 2))⌋ + 1) 0 ((cfg.size : ℤ) - 1) = 1 := by
      rw [hfl']; unfold clampInt; omega
    unfold getHeightAt
    simp only []
    rw [hx0, hx1, hx0', hx1', gxQ_neg_half cfg, Int.floor_zero]
    push_cast
    ring

theorem gzQ_ge (cfg : TerrainConfig) (z : ℚ) (hsize : 2 ≤ cfg.size) (hd : 0 < cfg.depth)
    (hz : cfg.depth / 2 ≤ z) : (cfg.size : ℚ) - 1 ≤ gzQ cfg z := by
  unfold gzQ
  have hs : (2 : ℚ) ≤ (cfg.size : ℚ) := by exact_mod_cast hsize
  have hstep : 0 < cfg.depth / ((cfg.size : ℚ) - 1) := div_pos hd (by linarith)
  rw [le_div_iff hstep]
  have hne : ((cfg.size : ℚ) - 1) ≠ 0 := by linarith
  have heq : ((cfg.size : ℚ) - 1) * (cfg.depth / ((cfg.size : ℚ) - 1)) = cfg.depth := by
    field_simp
  rw [heq]
  linarith

theorem gzQ_half (cfg : TerrainConfig) (hsize : 2 ≤ cfg.size) (hd : 0 < cfg.depth) :
    gzQ cfg (cfg.depth / 2) = (cfg.size : ℚ) - 1 := by
  unfold gzQ
  have hs : (2 : ℚ) ≤ (cfg.size : ℚ) := by exact_mod_cast hsize
  have hne : ((cfg.size : ℚ) - 1) ≠ 0 := by linarith
  have hdne : cfg.depth ≠ 0 := ne_of_gt hd
  field_simp

theorem gzQ_neg_half (cfg : TerrainConfig) : gzQ cfg (-(cfg.depth / 2)) = 0 := by
  unfold gzQ
  rw [neg_add_cancel, zero_div]

theorem getHeightAt_collapse_hi_z (cfg : TerrainConfig) (hs : List ℚ) (x z : ℚ)
    (hsize : 2 ≤ cfg.size) (hd : 0 < cfg.depth) (hz : cfg.depth / 2 ≤ z) :
    getHeightAt cfg hs x z = getHeightAt cfg hs x (cfg.depth / 2) := by
  have hge := gzQ_ge cfg z hsize hd hz
  have hs2 : (2 : ℤ) ≤ (cfg.size : ℤ) := by exact_mod_cast hsize
  have hfl : (cfg.size : ℤ) - 1 ≤ ⌊gzQ cfg z⌋ := by
    apply Int.le_floor.mpr
    push_cast
    linarith
  have hz0 : clampInt ⌊gzQ cfg z⌋ 0 ((cfg.size : ℤ) - 1) = (cfg.size : ℤ) - 1 := by
    unfold clampInt; omega
  have hz1 : clampInt (⌊gzQ cfg z⌋ + 1) 0 ((cfg.size : ℤ) - 1) = (cfg.size : ℤ) - 1 := by
    unfold clampInt; omega
  have hfl' : ⌊gzQ cfg (cfg.depth / 2)⌋ = (cfg.size : ℤ) - 1 := by
    rw [gzQ_half cfg hsize hd]
    have : ((cfg.size : ℚ) - 1) = (((cfg.size : ℤ) - 1 : ℤ) : ℚ) := by push_cast; ring
    rw [this, Int.floor_intCast]
  have hz0' : clampInt ⌊gzQ cfg (cfg.depth / 2)⌋ 0 ((cfg.size : ℤ) - 1)
      = (cfg.size : ℤ) - 1 := by rw [hfl']; unfold clampInt; omega
  have hz1' : clampInt (⌊gzQ cfg (cfg.depth / 2)⌋ + 1) 0 ((cfg.size : ℤ) - 1)
      = (cfg.size : ℤ) - 1 := by rw [hfl']; unfold clampInt; omega
  unfold getHeightAt
  simp only []
  rw [hz0, hz1, hz0', hz1']
  ring

theorem getHeightAt_collapse_lo_z (cfg : TerrainConfig) (hs : List ℚ) (x z : ℚ)
    (hsize : 2 ≤ cfg.size) (hd : 0 < cfg.depth) (hz : z ≤ -(cfg.depth / 2)) :
    getHeightAt cfg hs x z = getHeightAt cfg hs x (-(cfg.depth / 2)) := by
  rcases eq_or_lt_of_le hz with heq | hlt
  · rw [heq]
  · have hltq : gzQ cfg z < 0 := by
      unfold gzQ
      have hs : (2 : ℚ) ≤ (cfg.size : ℚ) := by exact_mod_cast hsize
      have hstep : 0 < cfg.depth / ((cfg.size : ℚ) - 1) := div_pos hd (by linarith)
      apply div_neg_of_neg_of_pos _ hstep
      linarith
    have hs2 : (2 : ℤ) ≤ (cfg.size : ℤ) := by exact_mod_cast hsize
    have hfl : ⌊gzQ cfg z⌋ ≤ -1 := by
      by_contra hcon
      push_neg at hcon
      have h0 : (0 : ℤ) ≤ ⌊gzQ cfg z⌋ := by omega
      have := Int.floor_nonneg.mp h0
      linarith
    have hz0 : clampInt ⌊gzQ cfg z⌋ 0 ((cfg.size : ℤ) - 1) = 0 := by
      unfold clampInt; omega
    have hz1 : clampInt (⌊gzQ cfg z⌋ + 1) 0 ((cfg.size : ℤ) - 1) = 0 := by
      unfold clampInt; omega
    have hfl' : ⌊gzQ cfg (-(cfg.depth / 2))⌋ = 0 := by
      rw [gzQ_neg_half cfg, Int.floor_zero]
    have hz0' : clampInt ⌊gzQ cfg (-(cfg.depth / 2))⌋ 0 ((cfg.size : ℤ) - 1) = 0 := by
      rw [hfl']; unfold clampInt; omega
    have hz1' : clampInt (⌊gzQ cfg (-(cfg.depth / 2))⌋ + 1) 0 ((cfg.size : ℤ) - 1) = 1 := by
      rw [hfl']; unfold clampInt; omega
    unfold getHeightAt
    simp only []
    rw [hz0, hz1, hz0', hz1', gzQ_neg_half cfg, Int.floor_zero]
    push_cast
    ring

theorem getHeightAt_clamp_x (cfg : TerrainConfig) (hs : List ℚ) (x z : ℚ)
    (hsize : 2 ≤ cfg.size) (hw : 0 < cfg.width) :
    getHeightAt cfg hs x z
      = getHeightAt cfg hs (max (-(cfg.width / 2)) (min (cfg.width / 2) x)) z := by
  rcases le_or_lt (cfg.width / 2) x with h | h
  · rw [min_eq_left h, max_eq_right (by linarith : -(cfg.width / 2) ≤ cfg.width / 2)]
    exact getHeightAt_collapse_hi_x cfg hs x z hsize hw h
  · rcases le_or_lt x (-(cfg.width / 2)) with h2 | h2
    · rw [min_eq_right (le_of_lt h), max_eq_left h2]
      exact getHeightAt_collapse_lo_x cfg hs x z hsize hw h2
    · rw [min_eq_right (le_of_lt h), max_eq_right (le_of_lt h2)]

theorem getHeightAt_clamp_z (cfg : TerrainConfig) (hs : List ℚ) (x z : ℚ)
    (hsize : 2 ≤ cfg.size) (hd : 0 < cfg.depth) :
    getHeightAt cfg hs x z
      = getHeightAt cfg hs x (max (-(cfg.depth / 2)) (min (cfg.depth / 2) z)) := by
  rcases le_or_lt (cfg.depth / 2) z with h | h
  · rw [min_eq_left h, max_eq_right (by linarith : -(cfg.depth / 2) ≤ cfg.depth / 2)]
    exact getHeightAt_collapse_hi_z cfg hs x z hsize hd h
  · rcases le_or_lt z (-(cfg.depth / 2)) with h2 | h2
    · rw [min_eq_right (le_of_lt h), max_eq_left h2]
      exact getHeightAt_collapse_lo_z cfg hs x z hsize hd h2
    · rw [min_eq_right (le_of_lt h), max_eq_right (le_of_lt h2)]

end Terrain

/-- **C4.** `Terrain.getHeightAt` is total on all of `ℚ × ℚ` (by
construction — no exception path exists in the embedding), it never reads
outside the `size * size` heightfield allocation (its value is unchanged if
the stored list is truncated to the first `size * size` entries, i.e. every
array access index is in range, so the JS code never produces `undefined`/
`NaN` from an out-of-bounds read), and far outside the world bounds it
returns the value at the nearest point of the boundary: its value at
`(x, z)` equals its value at the coordinatewise clamp of `(x, z)` into
`[-width/2, width/2] × [-depth/2, depth/2]`. -/
theorem terrain_getHeightAt_clamped_total (cfg : TerrainConfig) (hs : List ℚ) (x z : ℚ)
    (hsize : 2 ≤ cfg.size) (hw : 0 < cfg.width) (hd : 0 < cfg.depth) :
    Terrain.getHeightAt cfg hs x z
        = Terrain.getHeightAt cfg hs (max (-(cfg.width / 2)) (min (cfg.width / 2) x))
            (max (-(cfg.depth / 2)) (min (cfg.depth / 2) z)) ∧
      Terrain.getHeightAt cfg hs x z
        = Terrain.getHeightAt cfg (hs.take (cfg.size * cfg.size)) x z := by
  constructor
  · rw [Terrain.getHeightAt_clamp_x cfg hs x z hsize hw,
        Terrain.getHeightAt_clamp_z cfg hs _ z hsize hd]
  · exact Terrain.getHeightAt_take cfg hs x z (by omega)

/-- Witness for C4: a 3×3 grid queried far outside the world bounds. -/
theorem terrain_getHeightAt_clamped_total_witness :
    (2 ≤ (3 : ℕ) ∧ (0 : ℚ) < 10 ∧ (0 : ℚ) < 10) ∧
      (Terrain.getHeightAt ⟨3, 10, 10, 55, 1337, 2, 3⟩ [0, 1, 2, 3, 4, 5, 6, 7, 8] 1000 (-1000)
          = Terrain.getHeightAt ⟨3, 10, 10, 55, 1337, 2, 3⟩ [0, 1, 2, 3, 4, 5, 6, 7, 8]
              (max (-(10 / 2 : ℚ)) (min ((10 : ℚ) / 2) 1000))
              (max (-(10 / 2 : ℚ)) (min ((10 : ℚ) / 2) (-1000))) ∧
        Terrain.getHeightAt ⟨3, 10, 10, 55, 1337, 2, 3⟩ [0, 1, 2, 3, 4, 5, 6, 7, 8] 1000 (-1000)
          = Terrain.getHeightAt ⟨3, 10, 10, 55, 1337, 2, 3⟩
              ([0, 1, 2, 3, 4, 5, 6, 7, 8].take (3 * 3)) 1000 (-1000)) :=
  ⟨⟨by norm_num, by norm_num, by norm_num⟩,
    terrain_getHeightAt_clamped_total ⟨3, 10, 10, 55, 1337, 2, 3⟩ [0, 1, 2, 3, 4, 5, 6, 7, 8]
      1000 (-1000) (by norm_num) (by norm_num) (by norm_num)⟩

/-! ## `Terrain.addPhysicsCollider`: collider emission and its single error
path (missing index buffer). -/

/-- The slice of a three.js `BufferGeometry` that `addPhysicsCollider`
reads: the position buffer and the optional index buffer
(`geometry.index` is `null` for non-indexed geometry). -/
structure BufferGeometry where
  positions : List ℚ
  index : Option (List ℕ)

/-- A collider as recorded in the physics world. -/
inductive ColliderShape where
  | trimesh (positions : List ℚ) (indices : List ℕ)
  deriving DecidableEq

structure Collider where
  shape : ColliderShape
  friction : ℚ
  deriving DecidableEq

/-- `Terrain.addPhysicsCollider`: read the mesh position buffer; if the
geometry has no index buffer, throw `Terrain geometry is missing indices`
(before any collider is created); otherwise create exactly one static
triangle-mesh collider with friction 1.0 in the world. -/
def addPhysicsCollider (geo : BufferGeometry) (world : List Collider) :
    Except String (List Collider) :=
  match geo.index with
  | none => Except.error "Terrain geometry is missing indices"
  | some idx =>
      Except.ok (world ++ [{ shape := ColliderShape.trimesh geo.positions idx, friction := 1 }])

/-- **C9.** `Terrain.addPhysicsCollider` throws exactly when the terrain
mesh geometry has no index buffer, in which case the physics world is left
unchanged (the error return carries no new collider); otherwise it does not
throw and appends exactly one static triangle-mesh collider with
friction 1.0 to the world. -/
theorem terrain_addPhysicsCollider_error_iff (geo : BufferGeometry) (world : List Collider) :
    ((∃ e, addPhysicsCollider geo world = Except.error e) ↔ geo.index = none) ∧
    (geo.index = none →
      addPhysicsCollider geo world = Except.error "Terrain geometry is missing indices") ∧
    (∀ idx, geo.index = some idx →
      addPhysicsCollider geo world
        = Except.ok (world ++ [{ shape := ColliderShape.trimesh geo.positions idx,
                                 friction := 1 }])) := by
  unfold addPhysicsCollider
  rcases hidx : geo.index with - | idx
  · exact ⟨⟨fun _ => rfl, fun _ => ⟨"Terrain geometry is missing indices", rfl⟩⟩, fun _ => rfl,
      fun i hi => Option.noConfusion hi⟩
  · refine ⟨⟨?_, fun h => Option.noConfusion h⟩, fun h => Option.noConfusion h, fun i hi => ?_⟩
    · rintro ⟨e, he⟩
      exact Except.noConfusion he
    · injection hi with h
      subst h
      rfl

/-- Witness for C9: both branches at concrete geometries. -/
theorem terrain_addPhysicsCollider_error_iff_witness :
    addPhysicsCollider ⟨[1, 2, 3], some [0, 1, 2]⟩ []
        = Except.ok [{ shape := ColliderShape.trimesh [1, 2, 3] [0, 1, 2], friction := 1 }] ∧
      addPhysicsCollider ⟨[1, 2, 3], none⟩ []
        = Except.error "Terrain geometry is missing indices" := by
  constructor
  · have h := (terrain_addPhysicsCollider_error_iff ⟨[1, 2, 3], some [0, 1, 2]⟩ []).2.2
    simpa using h [0, 1, 2] rfl
  · exact (terrain_addPhysicsCollider_error_iff ⟨[1, 2, 3], none⟩ []).2.1 rfl

/-! ## Berries (`Berries` class): collectible instances and pickup. -/

/-- A three.js `Vector3` (components are JS doubles; modelled on `ℝ`
because berry positions involve `Math.cos`/`Math.sin`). -/
structure Vec3 where
  x : ℝ
  y : ℝ
  z : ℝ

/-- `Vector3.distanceToSquared`. -/
def Vec3.distanceToSquared (a b : Vec3) : ℝ :=
  (a.x - b.x) ^ 2 + (a.y - b.y) ^ 2 + (a.z - b.z) ^ 2

/-- A `BerryInstance` record (`object` — the attached scene node — is
display-only and omitted). -/
structure BerryInstance where
  position : Vec3
  collected : Bool
  baseScale : ℝ
  phase : ℝ
  popTime : ℝ

open Classical in
/-- `Berries.collectNear(position, radius)`: mark every uncollected instance
with squared distance at most `radius²` as collected, start its pop-out
timer (`popTime = 0.18`), and count the newly collected instances; all other
instances are untouched.  (The source iterates the array forward mutating in
place; the fold here produces the same final list and count.) -/
noncomputable def collectNear : List BerryInstance → Vec3 → ℝ → List BerryInstance × ℕ
  | [], _, _ => ([], 0)
  | b :: rest, p, r =>
    let acc := collectNear rest p r
    if b.collected = true then (b :: acc.1, acc.2)
    else if b.position.distanceToSquared p > r * r then (b :: acc.1, acc.2)
    else ({ b with collected := true, popTime := 0.18 } :: acc.1, acc.2 + 1)

open Classical in
theorem collectNear_eq (bs : List BerryInstance) (p : Vec3) (r : ℝ) :
    collectNear bs p r
      = (bs.map fun b =>
          if b.collected = false ∧ b.position.distanceToSquared p ≤ r * r
          then { b with collected := true, popTime := 0.18 } else b,
         bs.countP fun b =>
          decide (b.collected = false ∧ b.position.distanceToSquared p ≤ r * r)) := by
  induction bs with
  | nil => simp [collectNear]
  | cons b rest ih =>
    rw [collectNear, ih]
    by_cases hc : b.collected = true
    · simp [hc, List.countP_cons]
    · have hc' : b.collected = false := by
        cases hcb : b.collected
        · rfl
        · exact absurd hcb hc
      by_cases hd : b.position.distanceToSquared p > r * r
      · rw [if_neg (by simp [hc])]
        rw [if_pos hd]
        simp [List.countP_cons, hc', not_le.mpr hd]
      · rw [if_neg (by simp [hc])]
        rw [if_neg hd]
        simp [List.countP_cons, hc', not_lt.mp hd]

open Classical in
theorem collectNear_idem (bs : List BerryInstance) (p : Vec3) (r : ℝ) :
    collectNear (collectNear bs p r).1 p r = ((collectNear bs p r).1, 0) := by
  induction bs with
  | nil => simp [collectNear]
  | cons b rest ih =>
    rw [collectNear]
    by_cases hc : b.collected = true
    · rw [if_pos hc]
      rw [collectNear, if_pos hc, ih]
    · by_cases hd : b.position.distanceToSquared p > r * r
      · rw [if_neg hc, if_pos hd]
        rw [collectNear, if_neg hc, if_pos hd, ih]
      · rw [if_neg hc, if_neg hd]
        rw [collectNear, if_pos rfl, ih]

/-- **C8.** `collectNear(position, radius)` sets `collected := true` and
`popTime := 0.18` on exactly those instances that are uncollected and within
squared distance `radius²` of `position`, returns the count of newly
collected instances, leaves every other instance unchanged, and is
idempotent: an immediately repeated call returns 0 and changes nothing.  At
the spec's concrete scenario — one uncollected berry at `(10, 0, 10)` and
`collectNear((10, 0, 10), 1.8)` — the first call returns 1 with the
`collected` flag set, and the second call returns 0. -/
theorem berries_collectNear_marks_within_radius :
    (∀ (bs : List BerryInstance) (p : Vec3) (r : ℝ),
      collectNear bs p r
        = (bs.map fun b =>
            if b.collected = false ∧ b.position.distanceToSquared p ≤ r * r
            then { b with collected := true, popTime := 0.18 } else b,
           bs.countP fun b =>
            decide (b.collected = false ∧ b.position.distanceToSquared p ≤ r * r))) ∧
    (∀ (bs : List BerryInstance) (p : Vec3) (r : ℝ),
      collectNear (collectNear bs p r).1 p r = ((collectNear bs p r).1, 0)) ∧
    collectNear [⟨⟨10, 0, 10⟩, false, 1, 0, 0⟩] ⟨10, 0, 10⟩ 1.8
      = ([⟨⟨10, 0, 10⟩, true, 1, 0, 0.18⟩], 1) ∧
    collectNear [⟨⟨10, 0, 10⟩, true, 1, 0, 0.18⟩] ⟨10, 0, 10⟩ 1.8
      = ([⟨⟨10, 0, 10⟩, true, 1, 0, 0.18⟩], 0) := by
  classical
  refine ⟨collectNear_eq, collectNear_idem, ?_, ?_⟩
  · rw [collectNear, collectNear]
    rw [if_neg (by simp)]
    rw [if_neg (by simp [Vec3.distanceToSquared]; norm_num)]
  · rw [collectNear, collectNear]
    rw [if_pos rfl]

/-! ## Character controller (`Player.ts`). -/

/-- The per-frame input snapshot consumed by `Player.applyInput`
(`jumpHeld` is unused by the modelled slice). -/
structure InputState where
  forward : ℝ
  right : ℝ
  runHeld : Bool
  jumpPressed : Bool

/-- `PlayerConfig` (defaults: maxSpeed 12.75, acceleration 45, jumpSpeed
7.2, starvingSpeedMultiplier 0.28, coyoteTime 0.12, jumpBufferTime 0.12).
Speed fields are `ℝ` (they mix with `cos`/`sin`/`sqrt`); the jump-timing
fields are exact rationals. -/
structure PlayerConfig where
  maxSpeed : ℝ
  acceleration : ℝ
  jumpSpeed : ℚ
  starvingSpeedMultiplier : ℝ
  coyoteTime : ℚ
  jumpBufferTime : ℚ

/-- The source's default `PlayerConfig`. -/
def playerDefaults : PlayerConfig :=
  { maxSpeed := 12.75, acceleration := 45, jumpSpeed := 7.2,
    starvingSpeedMultiplier := 0.28, coyoteTime := 0.12, jumpBufferTime := 0.12 }

/-- three.js `Vector3.applyAxisAngle((0,1,0), yaw)` restricted to the XZ
plane: rotation about the world up axis. -/
noncomputable def rotateY (x z yaw : ℝ) : ℝ × ℝ :=
  (x * Real.cos yaw + z * Real.sin yaw, -x * Real.sin yaw + z * Real.cos yaw)

theorem rotateY_normSq (x z yaw : ℝ) :
    (rotateY x z yaw).1 ^ 2 + (rotateY x z yaw).2 ^ 2 = x ^ 2 + z ^ 2 := by
  unfold rotateY
  dsimp only
  have h := Real.sin_sq_add_cos_sq yaw
  nlinarith [h]

open Classical in
/-- The desired-velocity slice of `Player.applyInput` (`Player.ts` lines
204–214): `move = allowMove ? (right, 0, -forward) : 0`, normalised when its
squared length exceeds `1e-6`, rotated by the camera yaw; then
`targetSpeed = runHeld ? maxSpeed * 0.55 : maxSpeed`, multiplied by
`starvingSpeedMultiplier` when starving; the desired horizontal velocity is
`move * targetSpeed` (this is the value before slope resolution). -/
noncomputable def desiredVelocity (cfg : PlayerConfig) (starving : Bool) (st : InputState)
    (allowMove : Bool) (cameraYaw : ℝ) : ℝ × ℝ :=
  let move0 : ℝ × ℝ := if allowMove then (st.right, -st.forward) else (0, 0)
  let move1 : ℝ × ℝ :=
    if move0.1 ^ 2 + move0.2 ^ 2 > 1e-6 then
      (move0.1 / Real.sqrt (move0.1 ^ 2 + move0.2 ^ 2),
       move0.2 / Real.sqrt (move0.1 ^ 2 + move0.2 ^ 2))
    else move0
  let move := rotateY move1.1 move1.2 cameraYaw
  let targetSpeed0 : ℝ := if st.runHeld then cfg.maxSpeed * 0.55 else cfg.maxSpeed
  let targetSpeed : ℝ :=
    if starving then targetSpeed0 * cfg.starvingSpeedMultiplier else targetSpeed0
  (move.1 * targetSpeed, move.2 * targetSpeed)

/-- **C2 (counterexample).** The claim says the desired speed is reduced by
0.55 when the run modifier is *not* held.  In the code the reduction applies
when `runHeld` *is* held: with the default config, a unit move input, camera
yaw 0, `runHeld = true`, not starving and movement allowed, the desired
horizontal speed is `12.75 * 0.55 = 7.0125`, not the claimed full
`maxSpeed = 12.75` — and with `runHeld = false` it is the full `12.75`, not
the claimed reduced value. -/
theorem player_desiredVelocity_runHeld_counterexample :
    Real.sqrt ((desiredVelocity playerDefaults false ⟨0, 1, true, false⟩ true 0).1 ^ 2
        + (desiredVelocity playerDefaults false ⟨0, 1, true, false⟩ true 0).2 ^ 2)
      = 12.75 * 0.55 ∧
    Real.sqrt ((desiredVelocity playerDefaults false ⟨0, 1, false, false⟩ true 0).1 ^ 2
        + (desiredVelocity playerDefaults false ⟨0, 1, false, false⟩ true 0).2 ^ 2)
      = 12.75 ∧
    (12.75 * 0.55 : ℝ) ≠ 12.75 := by
  classical
  have heval : ∀ rh : Bool,
      desiredVelocity playerDefaults false ⟨0, 1, rh, false⟩ true 0
        = (1 * (if rh then (12.75 : ℝ) * 0.55 else 12.75),
           0 * (if rh then (12.75 : ℝ) * 0.55 else 12.75)) := by
    intro rh
    unfold desiredVelocity rotateY playerDefaults
    norm_num [Real.sqrt_one]
  refine ⟨?_, ?_, by norm_num⟩
  · rw [heval true]
    rw [if_pos rfl]
    have h : (1 * ((12.75 : ℝ) * 0.55)) ^ 2 + (0 * ((12.75 : ℝ) * 0.55)) ^ 2
        = ((12.75 : ℝ) * 0.55) ^ 2 := by ring
    rw [h, Real.sqrt_sq (by norm_num : (0 : ℝ) ≤ 12.75 * 0.55)]
  · rw [heval false]
    rw [if_neg (by simp)]
    have h : (1 * (12.75 : ℝ)) ^ 2 + (0 * (12.75 : ℝ)) ^ 2 = (12.75 : ℝ) ^ 2 := by ring
    rw [h, Real.sqrt_sq (by norm_num : (0 : ℝ) ≤ 12.75)]

theorem rotateY_scaled_norm (a b yaw t : ℝ) (hab : a ^ 2 + b ^ 2 = 1) (ht : 0 ≤ t) :
    Real.sqrt (((rotateY a b yaw).1 * t) ^ 2 + ((rotateY a b yaw).2 * t) ^ 2) = t := by
  have h : ((rotateY a b yaw).1 * t) ^ 2 + ((rotateY a b yaw).2 * t) ^ 2
      = ((rotateY a b yaw).1 ^ 2 + (rotateY a b yaw).2 ^ 2) * t ^ 2 := by ring
  rw [h, rotateY_normSq, hab, one_mul, Real.sqrt_sq ht]

open Classical in
/-- **C2 (amended).** In `applyInput`, when the squared length of the raw
move input exceeds the `1e-6` normalisation threshold, the desired
horizontal velocity (before slope resolution) has magnitude equal to the
configured max speed **multiplied by 0.55 exactly when the `runHeld`
modifier IS held** (in the shipped build that modifier is a walk key: the
HUD labels Shift "walk", and the code treats `!runHeld` as running), further
multiplied by `starvingSpeedMultiplier` when the starving flag is set; and
the desired velocity is exactly zero whenever `allowMove` is false. -/
theorem player_desiredVelocity_speed_scaling (cfg : PlayerConfig) (starving : Bool)
    (st : InputState) (yaw : ℝ)
    (hms : 0 ≤ cfg.maxSpeed) (hsm : 0 ≤ cfg.starvingSpeedMultiplier)
    (hmove : st.right ^ 2 + st.forward ^ 2 > 1e-6) :
    desiredVelocity cfg starving st false yaw = (0, 0) ∧
    Real.sqrt ((desiredVelocity cfg starving st true yaw).1 ^ 2
        + (desiredVelocity cfg starving st true yaw).2 ^ 2)
      = (if st.runHeld then cfg.maxSpeed * 0.55 else cfg.maxSpeed)
        * (if starving then cfg.starvingSpeedMultiplier else 1) := by
  classical
  constructor
  · unfold desiredVelocity rotateY
    norm_num
  · have hS : st.right ^ 2 + (-st.forward) ^ 2 > 1e-6 := by rwa [neg_sq]
    have hSpos : (0 : ℝ) < st.right ^ 2 + (-st.forward) ^ 2 := lt_trans (by norm_num) hS
    have hsqrt : Real.sqrt (st.right ^ 2 + (-st.forward) ^ 2) ≠ 0 :=
      ne_of_gt (Real.sqrt_pos.mpr hSpos)
    have hunit :
        (st.right / Real.sqrt (st.right ^ 2 + (-st.forward) ^ 2)) ^ 2
          + (-st.forward / Real.sqrt (st.right ^ 2 + (-st.forward) ^ 2)) ^ 2 = 1 := by
      rw [div_pow, div_pow, div_add_div_same, Real.sq_sqrt (le_of_lt hSpos)]
      exact div_self (ne_of_gt hSpos)
    have ht0 : (0 : ℝ) ≤ (if st.runHeld then cfg.maxSpeed * 0.55 else cfg.maxSpeed)
        * (if starving then cfg.starvingSpeedMultiplier else 1) := by
      apply mul_nonneg
      · split
        · nlinarith
        · exact hms
      · split
        · exact hsm
        · norm_num
    have heval : desiredVelocity cfg starving st true yaw
        = ((rotateY (st.right / Real.sqrt (st.right ^ 2 + (-st.forward) ^ 2))
              (-st.forward / Real.sqrt (st.right ^ 2 + (-st.forward) ^ 2)) yaw).1
            * ((if st.runHeld then cfg.maxSpeed * 0.55 else cfg.maxSpeed)
              * (if starving then cfg.starvingSpeedMultiplier else 1)),
           (rotateY (st.right / Real.sqrt (st.right ^ 2 + (-st.forward) ^ 2))
              (-st.forward / Real.sqrt (st.right ^ 2 + (-st.forward) ^ 2)) yaw).2
            * ((if st.runHeld then cfg.maxSpeed * 0.55 else cfg.maxSpeed)
              * (if starving then cfg.starvingSpeedMultiplier else 1))) := by
      unfold desiredVelocity
      rw [if_pos rfl]
      dsimp only
      rw [if_pos hS]
      rcases hrh : st.runHeld with - | -
      · rcases hstv : starving with - | -
        · simp
        · simp
      · rcases hstv : starving with - | -
        · simp
        · simp [mul_comm]
    rw [heval]
    exact rotateY_scaled_norm _ _ _ _ hunit ht0

/-- Witness for the amended C2 at a concrete configuration and input. -/
theorem player_desiredVelocity_speed_scaling_witness :
    ((0 : ℝ) ≤ 12.75 ∧ (0 : ℝ) ≤ 0.28 ∧ ((1 : ℝ) ^ 2 + (0 : ℝ) ^ 2 > 1e-6)) ∧
    desiredVelocity playerDefaults true ⟨0, 1, false, false⟩ false 0 = (0, 0) ∧
    Real.sqrt ((desiredVelocity playerDefaults true ⟨0, 1, false, false⟩ true 0).1 ^ 2
        + (desiredVelocity playerDefaults true ⟨0, 1, false, false⟩ true 0).2 ^ 2)
      = (if (false : Bool) then (12.75 : ℝ) * 0.55 else 12.75)
        * (if (true : Bool) then (0.28 : ℝ) else 1) := by
  have h := player_desiredVelocity_speed_scaling playerDefaults true ⟨0, 1, false, false⟩ 0
    (by norm_num [playerDefaults]) (by norm_num [playerDefaults]) (by norm_num)
  refine ⟨⟨by norm_num, by norm_num, by norm_num⟩, h.1, ?_⟩
  simpa [playerDefaults] using h.2

/-- The controller state mutated by the jump-timing slice of
`Player.applyInput` (timers, vertical velocity, grounded flag, celebration
bookkeeping). All time quantities are exact rationals. -/
structure PlayerJumpState where
  grounded : Bool
  coyoteTimer : ℚ
  jumpBufferTimer : ℚ
  velY : ℚ
  jumpAnimTime : ℚ
  jumpWasRunning : Bool
  celebrating : Bool
  celebrationTime : ℚ
  celebrationDuration : ℚ
  celebrationHopTimer : ℚ

/-- One `applyInput` call's inputs for the jump-timing slice: the frame
time, the ground-probe result (external: the physics raycast), and the
input snapshot bits it reads. -/
structure Frame where
  dt : ℚ
  groundProbe : Bool
  jumpPressed : Bool
  runHeld : Bool

/-- The jump-timing slice of `Player.applyInput`: set `grounded` from the
probe; reset the coyote timer to `cfg.coyoteTime` when grounded, else
decrement it by `dt` (floored at 0); reset the jump-buffer timer to
`cfg.jumpBufferTime` on a jump press, else decrement it (floored at 0);
then, if both timers are `> 0`, set `velY := cfg.jumpSpeed`, clear both
timers, mark airborne, and record `jumpWasRunning := !runHeld`; otherwise,
when celebrating, grounded, and the hop cooldown expired, perform the
automatic celebration hop. -/
def applyInputJump (cfg : PlayerConfig) (s : PlayerJumpState) (f : Frame) : PlayerJumpState :=
  let grounded := f.groundProbe
  let coyote := if grounded then cfg.coyoteTime else max 0 (s.coyoteTimer - f.dt)
  let buffer := if f.jumpPressed then cfg.jumpBufferTime else max 0 (s.jumpBufferTimer - f.dt)
  if 0 < coyote ∧ 0 < buffer then
    { s with grounded := false, coyoteTimer := 0, jumpBufferTimer := 0,
             velY := cfg.jumpSpeed, jumpAnimTime := 0.45, jumpWasRunning := !f.runHeld }
  else if s.celebrating ∧ grounded ∧ s.celebrationHopTimer ≤ 0 then
    { s with grounded := false, coyoteTimer := coyote, jumpBufferTimer := buffer,
             velY := cfg.jumpSpeed * 0.85, jumpAnimTime := 0.4, jumpWasRunning := false,
             celebrationHopTimer := 0.45
               + (if 0 < s.celebrationDuration
                  then 1 - s.celebrationTime / s.celebrationDuration else 1) * 0.35 }
  else
    { s with grounded := grounded, coyoteTimer := coyote, jumpBufferTimer := buffer }

/-- A sequence of `applyInput` calls. -/
def runFrames (cfg : PlayerConfig) (s : PlayerJumpState) (fs : List Frame) : PlayerJumpState :=
  fs.foldl (applyInputJump cfg) s

theorem applyInputJump_fires (cfg : PlayerConfig) (s : PlayerJumpState) (f : Frame)
    (hcoy : 0 < (if f.groundProbe then cfg.coyoteTime else max 0 (s.coyoteTimer - f.dt)))
    (hbuf : 0 < (if f.jumpPressed then cfg.jumpBufferTime else max 0 (s.jumpBufferTimer - f.dt))) :
    applyInputJump cfg s f
      = { s with grounded := false, coyoteTimer := 0, jumpBufferTimer := 0,
                 velY := cfg.jumpSpeed, jumpAnimTime := 0.45,
                 jumpWasRunning := !f.runHeld } := by
  unfold applyInputJump
  rw [if_pos ⟨hcoy, hbuf⟩]

/-- A non-pressing airborne frame with `jumpBufferTimer = 0` and no
celebration only decrements the coyote timer. -/
theorem applyInputJump_airborne_idle (cfg : PlayerConfig) (s : PlayerJumpState) (d : ℚ)
    (rb : Bool) (hd : 0 ≤ d) (hcel : s.celebrating = false) (hbuf : s.jumpBufferTimer = 0) :
    applyInputJump cfg s ⟨d, false, false, rb⟩
      = { s with grounded := false, coyoteTimer := max 0 (s.coyoteTimer - d),
                 jumpBufferTimer := 0 } := by
  unfold applyInputJump
  rw [if_neg (by
    rintro ⟨-, hb⟩
    rw [if_neg (by simp)] at hb
    rw [hbuf] at hb
    have : max 0 (0 - d) = 0 := max_eq_left (by linarith)
    rw [this] at hb
    exact lt_irrefl 0 hb)]
  rw [if_neg (by simp [hcel])]
  have h1 : (if (false : Bool) then cfg.coyoteTime else max 0 (s.coyoteTimer - d))
      = max 0 (s.coyoteTimer - d) := by simp
  have h2 : (if (false : Bool) then cfg.jumpBufferTime else max 0 (s.jumpBufferTimer - d))
      = max 0 (s.jumpBufferTimer - d) := by simp
  rw [h1, h2, hbuf]
  have : max 0 (0 - d : ℚ) = 0 := max_eq_left (by linarith)
  rw [this]

/-- A non-pressing airborne frame with `coyoteTimer = 0` and no celebration
only decrements the jump-buffer timer. -/
theorem applyInputJump_airborne_wait (cfg : PlayerConfig) (s : PlayerJumpState) (d : ℚ)
    (rb : Bool) (hd : 0 ≤ d) (hcel : s.celebrating = false) (hcoy : s.coyoteTimer = 0) :
    applyInputJump cfg s ⟨d, false, false, rb⟩
      = { s with grounded := false, coyoteTimer := 0,
                 jumpBufferTimer := max 0 (s.jumpBufferTimer - d) } := by
  unfold applyInputJump
  rw [if_neg (by
    rintro ⟨hc, -⟩
    rw [if_neg (by simp)] at hc
    rw [hcoy] at hc
    have : max 0 (0 - d) = 0 := max_eq_left (by linarith)
    rw [this] at hc
    exact lt_irrefl 0 hc)]
  rw [if_neg (by simp [hcel])]
  have h1 : (if (false : Bool) then cfg.coyoteTime else max 0 (s.coyoteTimer - d))
      = max 0 (s.coyoteTimer - d) := by simp
  have h2 : (if (false : Bool) then cfg.jumpBufferTime else max 0 (s.jumpBufferTimer - d))
      = max 0 (s.jumpBufferTimer - d) := by simp
  rw [h1, h2, hcoy]
  have : max 0 (0 - d : ℚ) = 0 := max_eq_left (by linarith)
  rw [this]

theorem coyote_mid_frames (cfg : PlayerConfig) (rb : Bool) (dts : List ℚ) :
    ∀ (s : PlayerJumpState) (tail : ℚ),
      (∀ d ∈ dts, 0 ≤ d) → 0 ≤ tail → s.celebrating = false → s.jumpBufferTimer = 0 →
      dts.sum + tail < s.coyoteTimer →
      (runFrames cfg s (dts.map fun d => ⟨d, false, false, rb⟩)).celebrating = false ∧
      (runFrames cfg s (dts.map fun d => ⟨d, false, false, rb⟩)).jumpBufferTimer = 0 ∧
      (runFrames cfg s (dts.map fun d => ⟨d, false, false, rb⟩)).coyoteTimer
        = s.coyoteTimer - dts.sum := by
  induction dts with
  | nil =>
    intro s tail _ _ hcel hbuf _
    simp [runFrames, hcel, hbuf]
  | cons d rest ih =>
    intro s tail hd htail hcel hbuf hsum
    have hd0 : 0 ≤ d := hd d (by simp)
    have hrest : ∀ x ∈ rest, 0 ≤ x := fun x hx => hd x (by simp [hx])
    have hrsum : 0 ≤ rest.sum := List.sum_nonneg hrest
    have hsum' : d + (rest.sum + tail) < s.coyoteTimer := by
      rw [List.sum_cons] at hsum; linarith
    have hstep := applyInputJump_airborne_idle cfg s d rb hd0 hcel hbuf
    have hmax : max 0 (s.coyoteTimer - d) = s.coyoteTimer - d :=
      max_eq_right (by linarith)
    rw [List.map_cons]
    have hrun : runFrames cfg s (⟨d, false, false, rb⟩ :: rest.map fun x => ⟨x, false, false, rb⟩)
        = runFrames cfg (applyInputJump cfg s ⟨d, false, false, rb⟩)
            (rest.map fun x => ⟨x, false, false, rb⟩) := rfl
    rw [hrun, hstep, hmax]
    have := ih { s with grounded := false, coyoteTimer := s.coyoteTimer - d,
                        jumpBufferTimer := 0 } tail hrest htail (by simp [hcel]) rfl
      (by simp; rw [List.sum_cons] at hsum; linarith)
    obtain ⟨h1, h2, h3⟩ := this
    refine ⟨h1, h2, ?_⟩
    rw [h3]
    simp
    ring

theorem buffer_mid_frames (cfg : PlayerConfig) (rb : Bool) (dts : List ℚ) :
    ∀ (s : PlayerJumpState) (tail : ℚ),
      (∀ d ∈ dts, 0 ≤ d) → 0 ≤ tail → s.celebrating = false → s.coyoteTimer = 0 →
      dts.sum + tail < s.jumpBufferTimer →
      (runFrames cfg s (dts.map fun d => ⟨d, false, false, rb⟩)).celebrating = false ∧
      (runFrames cfg s (dts.map fun d => ⟨d, false, false, rb⟩)).coyoteTimer = 0 ∧
      (runFrames cfg s (dts.map fun d => ⟨d, false, false, rb⟩)).jumpBufferTimer
        = s.jumpBufferTimer - dts.sum := by
  induction dts with
  | nil =>
    intro s tail _ _ hcel hcoy _
    simp [runFrames, hcel, hcoy]
  | cons d rest ih =>
    intro s tail hd htail hcel hcoy hsum
    have hd0 : 0 ≤ d := hd d (by simp)
    have hrest : ∀ x ∈ rest, 0 ≤ x := fun x hx => hd x (by simp [hx])
    have hrsum : 0 ≤ rest.sum := List.sum_nonneg hrest
    have hstep := applyInputJump_airborne_wait cfg s d rb hd0 hcel hcoy
    have hmax : max 0 (s.jumpBufferTimer - d) = s.jumpBufferTimer - d := by
      apply max_eq_right
      rw [List.sum_cons] at hsum
      linarith
    rw [List.map_cons]
    have hrun : runFrames cfg s (⟨d, false, false, rb⟩ :: rest.map fun x => ⟨x, false, false, rb⟩)
        = runFrames cfg (applyInputJump cfg s ⟨d, false, false, rb⟩)
            (rest.map fun x => ⟨x, false, false, rb⟩) := rfl
    rw [hrun, hstep, hmax]
    have := ih { s with grounded := false, coyoteTimer := 0,
                        jumpBufferTimer := s.jumpBufferTimer - d } tail hrest htail
      (by simp [hcel]) rfl (by simp; rw [List.sum_cons] at hsum; linarith)
    obtain ⟨h1, h2, h3⟩ := this
    refine ⟨h1, h2, ?_⟩
    rw [h3]
    simp
    ring

/-- A grounded frame without a jump press and with an empty jump buffer
resets the coyote timer and does not jump. -/
theorem applyInputJump_grounded_idle (cfg : PlayerConfig) (s : PlayerJumpState) (d : ℚ)
    (rg : Bool) (hd : 0 ≤ d) (hcel : s.celebrating = false) (hbuf : s.jumpBufferTimer = 0) :
    applyInputJump cfg s ⟨d, true, false, rg⟩
      = { s with grounded := true, coyoteTimer := cfg.coyoteTime, jumpBufferTimer := 0 } := by
  unfold applyInputJump
  rw [if_neg (by
    rintro ⟨-, hb⟩
    rw [if_neg (by simp)] at hb
    rw [hbuf] at hb
    have : max 0 (0 - d) = 0 := max_eq_left (by linarith)
    rw [this] at hb
    exact lt_irrefl 0 hb)]
  rw [if_neg (by simp [hcel])]
  have h1 : (if (true : Bool) then cfg.coyoteTime else max 0 (s.coyoteTimer - d))
      = cfg.coyoteTime := by simp
  have h2 : (if (false : Bool) then cfg.jumpBufferTime else max 0 (s.jumpBufferTimer - d))
      = max 0 (s.jumpBufferTimer - d) := by simp
  rw [h1, h2, hbuf]
  have : max 0 (0 - d : ℚ) = 0 := max_eq_left (by linarith)
  rw [this]

/-- An airborne jump press with an expired coyote timer only arms the jump
buffer and does not jump. -/
theorem applyInputJump_press_airborne (cfg : PlayerConfig) (s : PlayerJumpState) (d : ℚ)
    (rp : Bool) (hd : 0 ≤ d) (hcel : s.celebrating = false) (hcoy : s.coyoteTimer = 0) :
    applyInputJump cfg s ⟨d, false, true, rp⟩
      = { s with grounded := false, coyoteTimer := 0,
                 jumpBufferTimer := cfg.jumpBufferTime } := by
  unfold applyInputJump
  rw [if_neg (by
    rintro ⟨hc, -⟩
    rw [if_neg (by simp)] at hc
    rw [hcoy] at hc
    have : max 0 (0 - d) = 0 := max_eq_left (by linarith)
    rw [this] at hc
    exact lt_irrefl 0 hc)]
  rw [if_neg (by simp [hcel])]
  have h1 : (if (false : Bool) then cfg.coyoteTime else max 0 (s.coyoteTimer - d))
      = max 0 (s.coyoteTimer - d) := by simp
  have h2 : (if (true : Bool) then cfg.jumpBufferTime else max 0 (s.jumpBufferTimer - d))
      = cfg.jumpBufferTime := by simp
  rw [h1, h2, hcoy]
  have : max 0 (0 - d : ℚ) = 0 := max_eq_left (by linarith)
  rw [this]

/-- **C7.** In `applyInput`: (i) whenever both the (already updated) coyote
timer and jump-buffer timer are `> 0`, the controller sets the vertical
velocity to `cfg.jumpSpeed`, clears both timers to zero and marks the body
airborne; (ii) since the coyote timer is reset to `cfg.coyoteTime` on every
grounded frame and decremented by `dt` while airborne, a jump pressed while
airborne within total elapsed frame time `< coyoteTime` of the last
grounded frame still triggers the jump on that frame; (iii) since the
jump-buffer timer is reset to `cfg.jumpBufferTime` on a press edge and
decremented otherwise, a jump pressed while airborne within total elapsed
frame time `< jumpBufferTime` before a grounded frame triggers the jump on
that grounded frame.  (Scenarios (ii)/(iii) assume no celebration hop is in
progress and, for (ii), that the buffer starts empty with no press until
the jump, resp. for (iii) that the coyote window is already expired.) -/
theorem player_coyote_jumpBuffer_windows :
    (∀ (cfg : PlayerConfig) (s : PlayerJumpState) (f : Frame),
      0 < (if f.groundProbe then cfg.coyoteTime else max 0 (s.coyoteTimer - f.dt)) →
      0 < (if f.jumpPressed then cfg.jumpBufferTime else max 0 (s.jumpBufferTimer - f.dt)) →
      applyInputJump cfg s f
        = { s with grounded := false, coyoteTimer := 0, jumpBufferTimer := 0,
                   velY := cfg.jumpSpeed, jumpAnimTime := 0.45,
                   jumpWasRunning := !f.runHeld }) ∧
    (∀ (cfg : PlayerConfig) (s₀ : PlayerJumpState) (dt0 dtl : ℚ) (dts : List ℚ)
        (rg rb rl : Bool),
      0 < cfg.jumpBufferTime → s₀.celebrating = false → s₀.jumpBufferTimer = 0 →
      0 ≤ dt0 → (∀ d ∈ dts, 0 ≤ d) → 0 ≤ dtl → dts.sum + dtl < cfg.coyoteTime →
      (runFrames cfg s₀ (⟨dt0, true, false, rg⟩ ::
          (dts.map fun d => ⟨d, false, false, rb⟩) ++ [⟨dtl, false, true, rl⟩])).velY
          = cfg.jumpSpeed ∧
      (runFrames cfg s₀ (⟨dt0, true, false, rg⟩ ::
          (dts.map fun d => ⟨d, false, false, rb⟩) ++ [⟨dtl, false, true, rl⟩])).grounded
          = false ∧
      (runFrames cfg s₀ (⟨dt0, true, false, rg⟩ ::
          (dts.map fun d => ⟨d, false, false, rb⟩) ++ [⟨dtl, false, true, rl⟩])).coyoteTimer
          = 0 ∧
      (runFrames cfg s₀ (⟨dt0, true, false, rg⟩ ::
          (dts.map fun d => ⟨d, false, false, rb⟩) ++ [⟨dtl, false, true, rl⟩])).jumpBufferTimer
          = 0) ∧
    (∀ (cfg : PlayerConfig) (s₀ : PlayerJumpState) (dtp dtl : ℚ) (dts : List ℚ)
        (rp rb rl : Bool),
      0 < cfg.coyoteTime → s₀.celebrating = false → s₀.coyoteTimer = 0 →
      0 ≤ dtp → (∀ d ∈ dts, 0 ≤ d) → 0 ≤ dtl → dts.sum + dtl < cfg.jumpBufferTime →
      (runFrames cfg s₀ (⟨dtp, false, true, rp⟩ ::
          (dts.map fun d => ⟨d, false, false, rb⟩) ++ [⟨dtl, true, false, rl⟩])).velY
          = cfg.jumpSpeed ∧
      (runFrames cfg s₀ (⟨dtp, false, true, rp⟩ ::
          (dts.map fun d => ⟨d, false, false, rb⟩) ++ [⟨dtl, true, false, rl⟩])).grounded
          = false ∧
      (runFrames cfg s₀ (⟨dtp, false, true, rp⟩ ::
          (dts.map fun d => ⟨d, false, false, rb⟩) ++ [⟨dtl, true, false, rl⟩])).coyoteTimer
          = 0 ∧
      (runFrames cfg s₀ (⟨dtp, false, true, rp⟩ ::
          (dts.map fun d => ⟨d, false, false, rb⟩) ++ [⟨dtl, true, false, rl⟩])).jumpBufferTimer
          = 0) := by
  refine ⟨applyInputJump_fires, ?_, ?_⟩
  · intro cfg s₀ dt0 dtl dts rg rb rl hjb hcel hbuf hdt0 hdts hdtl hsum
    have hsum0 : 0 ≤ dts.sum := List.sum_nonneg hdts
    have hrun1 : runFrames cfg s₀ (⟨dt0, true, false, rg⟩ ::
        (dts.map fun d => ⟨d, false, false, rb⟩) ++ [⟨dtl, false, true, rl⟩])
        = runFrames cfg (applyInputJump cfg s₀ ⟨dt0, true, false, rg⟩)
            ((dts.map fun d => ⟨d, false, false, rb⟩) ++ [⟨dtl, false, true, rl⟩]) := rfl
    have hstep0 := applyInputJump_grounded_idle cfg s₀ dt0 rg hdt0 hcel hbuf
    set s₁ : PlayerJumpState :=
      { s₀ with grounded := true, coyoteTimer := cfg.coyoteTime, jumpBufferTimer := 0 } with hs₁
    have hrun2 : runFrames cfg s₁
        ((dts.map fun d => ⟨d, false, false, rb⟩) ++ [⟨dtl, false, true, rl⟩])
        = applyInputJump cfg (runFrames cfg s₁ (dts.map fun d => ⟨d, false, false, rb⟩))
            ⟨dtl, false, true, rl⟩ := by
      unfold runFrames
      rw [List.foldl_append, List.foldl_cons, List.foldl_nil]
    have hmid := coyote_mid_frames cfg rb dts s₁ dtl hdts hdtl
      (by rw [hs₁]; exact hcel) (by rw [hs₁]) (by rw [hs₁]; simpa using hsum)
    obtain ⟨hm1, hm2, hm3⟩ := hmid
    set s₂ := runFrames cfg s₁ (dts.map fun d => ⟨d, false, false, rb⟩) with hs₂
    have hcoy2 : s₂.coyoteTimer = cfg.coyoteTime - dts.sum := by
      rw [hm3]
    have hfire := applyInputJump_fires cfg s₂ ⟨dtl, false, true, rl⟩
      (by
        simp only [if_neg (by simp : ¬((false : Bool) = true))]
        rw [hcoy2]
        have : (0 : ℚ) < cfg.coyoteTime - dts.sum - dtl := by linarith
        exact lt_max_of_lt_right (by linarith))
      (by simp only [if_pos (by simp : (true : Bool) = true)]; exact hjb)
    rw [hrun1, hstep0, hrun2, hfire]
    refine ⟨rfl, rfl, rfl, rfl⟩
  · intro cfg s₀ dtp dtl dts rp rb rl hct hcel hcoy hdtp hdts hdtl hsum
    have hsum0 : 0 ≤ dts.sum := List.sum_nonneg hdts
    have hrun1 : runFrames cfg s₀ (⟨dtp, false, true, rp⟩ ::
        (dts.map fun d => ⟨d, false, false, rb⟩) ++ [⟨dtl, true, false, rl⟩])
        = runFrames cfg (applyInputJump cfg s₀ ⟨dtp, false, true, rp⟩)
            ((dts.map fun d => ⟨d, false, false, rb⟩) ++ [⟨dtl, true, false, rl⟩]) := rfl
    have hstep0 := applyInputJump_press_airborne cfg s₀ dtp rp hdtp hcel hcoy
    set s₁ : PlayerJumpState :=
      { s₀ with grounded := false, coyoteTimer := 0,
                jumpBufferTimer := cfg.jumpBufferTime } with hs₁
    have hrun2 : runFrames cfg s₁
        ((dts.map fun d => ⟨d, false, false, rb⟩) ++ [⟨dtl, true, false, rl⟩])
        = applyInputJump cfg (runFrames cfg s₁ (dts.map fun d => ⟨d, false, false, rb⟩))
            ⟨dtl, true, false, rl⟩ := by
      unfold runFrames
      rw [List.foldl_append, List.foldl_cons, List.foldl_nil]
    have hmid := buffer_mid_frames cfg rb dts s₁ dtl hdts hdtl
      (by rw [hs₁]; exact hcel) (by rw [hs₁]) (by rw [hs₁]; simpa using hsum)
    obtain ⟨hm1, hm2, hm3⟩ := hmid
    set s₂ := runFrames cfg s₁ (dts.map fun d => ⟨d, false, false, rb⟩) with hs₂
    have hbuf2 : s₂.jumpBufferTimer = cfg.jumpBufferTime - dts.sum := by
      rw [hm3]
    have hfire := applyInputJump_fires cfg s₂ ⟨dtl, true, false, rl⟩
      (by simp only [if_pos (by simp : (true : Bool) = true)]; exact hct)
      (by
        simp only [if_neg (by simp : ¬((false : Bool) = true))]
        rw [hbuf2]
        have : (0 : ℚ) < cfg.jumpBufferTime - dts.sum - dtl := by linarith
        exact lt_max_of_lt_right (by linarith))
    rw [hrun1, hstep0, hrun2, hfire]
    refine ⟨rfl, rfl, rfl, rfl⟩

/-- Witness for C7: the default config, a two-frame coyote gap, and a
one-frame early jump press before landing. -/
theorem player_coyote_jumpBuffer_windows_witness :
    ((0 : ℚ) < playerDefaults.jumpBufferTime ∧ (0 : ℚ) < playerDefaults.coyoteTime ∧
      ((1 : ℚ) / 50) + 1 / 100 < playerDefaults.coyoteTime ∧
      ((1 : ℚ) / 50) + 1 / 100 < playerDefaults.jumpBufferTime) ∧
    (runFrames playerDefaults ⟨true, 0, 0, 0, 0, false, false, 0, 0, 0⟩
        (⟨1 / 100, true, false, false⟩ ::
          ([1 / 50].map fun d => ⟨d, false, false, false⟩) ++ [⟨1 / 100, false, true, false⟩])).velY
      = playerDefaults.jumpSpeed ∧
    (runFrames playerDefaults ⟨false, 0, 0, 0, 0, false, false, 0, 0, 0⟩
        (⟨1 / 100, false, true, false⟩ ::
          ([1 / 50].map fun d => ⟨d, false, false, false⟩) ++ [⟨1 / 100, true, false, false⟩])).velY
      = playerDefaults.jumpSpeed := by
  have h1 : (0 : ℚ) < playerDefaults.jumpBufferTime := by norm_num [playerDefaults]
  have h2 : (0 : ℚ) < playerDefaults.coyoteTime := by norm_num [playerDefaults]
  have h3 : ([1 / 50] : List ℚ).sum + 1 / 100 < playerDefaults.coyoteTime := by
    norm_num [playerDefaults]
  have h4 : ([1 / 50] : List ℚ).sum + 1 / 100 < playerDefaults.jumpBufferTime := by
    norm_num [playerDefaults]
  have hd : ∀ d ∈ ([1 / 50] : List ℚ), 0 ≤ d := by
    intro d hdm
    simp at hdm
    rw [hdm]
    norm_num
  refine ⟨⟨h1, h2, by norm_num [playerDefaults], by norm_num [playerDefaults]⟩, ?_, ?_⟩
  · exact (player_coyote_jumpBuffer_windows.2.1 playerDefaults
      ⟨true, 0, 0, 0, 0, false, false, 0, 0, 0⟩ (1 / 100) (1 / 100) [1 / 50] false false false
      h1 rfl rfl (by norm_num) hd (by norm_num) h3).1
  · exact (player_coyote_jumpBuffer_windows.2.2 playerDefaults
      ⟨false, 0, 0, 0, 0, false, false, 0, 0, 0⟩ (1 / 100) (1 / 100) [1 / 50] false false false
      h2 rfl rfl (by norm_num) hd (by norm_num) h4).1

/-! ## Placement engines (the decor file's `Decor` class, the berries
file's `Berries.reset`, and `OwnerGoal.reset`).

The terrain height lookup `terrain.getHeightAt` is passed in abstractly as
`hf : ℝ → ℝ → ℝ` (the passes only compose with it), and `Math.random()` is
passed in explicitly. -/

/-- `estimateSlopeRadians` (three identical private copies exist in the
source, with `e = 2.0` in the decor/owner-goal files and `e = 2.2` in the
berries file): central-difference gradient at epsilon `e`, slope angle
`atan(sqrt(dx² + dz²))`. -/
noncomputable def estimateSlopeRadians (hf : ℝ → ℝ → ℝ) (e x z : ℝ) : ℝ :=
  let hL := hf (x - e) z
  let hR := hf (x + e) z
  let hD := hf x (z - e)
  let hU := hf x (z + e)
  let dx := (hR - hL) / (2 * e)
  let dz := (hU - hD) / (2 * e)
  Real.arctan (Real.sqrt (dx ^ 2 + dz ^ 2))

/-- `DecorConfig` (defaults: 900 trees, 240 dense trees, 220 rocks, seed
2026, no dense target). -/
structure DecorConfig where
  treeCount : ℕ
  denseTreeCount : ℕ
  rockCount : ℕ
  seed : ℤ
  denseTarget : Option (ℝ × ℝ)

/-- A placement transform as recorded per instance (position on the XZ
plane, yaw, and the base random scale draw). -/
structure PlacedInstance where
  x : ℝ
  z : ℝ
  yaw : ℝ
  scale : ℝ

namespace Decor

open Classical in
/-- The shared uniform rejection-sampling loop of `placeTrees` and
`placeRocks` (`while placed < count && attempts < count * K`): draw
`x, z` uniformly over the world footprint, reject when the squared distance
from the spawn origin is below `minDistSq` or the estimated slope (epsilon
2.0) exceeds `maxSlopeDeg` degrees, otherwise draw the scale
(`(scaleBase + rand() * scaleSpan) * scaleMul`) and yaw and record the
instance.  Trees use `(minDistSq, maxSlopeDeg, K, scale) =
(30², 55, 25, (0.75 + r·0.6)·5)`; rocks use `(25², 65, 35, 0.6 + r·1.2)`.
`fuel` only bounds the recursion; it is chosen `≥ cap + 1` so the loop
condition, not the fuel, terminates the loop. -/
noncomputable def uniformPassLoop (hf : ℝ → ℝ → ℝ) (width depth : ℚ)
    (count cap : ℕ) (minDistSq maxSlopeDeg : ℚ) (scaleBase scaleSpan scaleMul : ℚ) :
    ℕ → ℕ → ℕ → ℕ → List PlacedInstance × ℕ
  | 0, _, _, attempts => ([], attempts)
  | fuel + 1, st, placed, attempts =>
    if placed < count ∧ attempts < cap then
      let d1 := mulberryNext st
      let d2 := mulberryNext d1.1
      let x : ℝ := (((d1.2 - 1 / 2) * width : ℚ) : ℝ)
      let z : ℝ := (((d2.2 - 1 / 2) * depth : ℚ) : ℝ)
      if x * x + z * z < (minDistSq : ℝ) then
        uniformPassLoop hf width depth count cap minDistSq maxSlopeDeg
          scaleBase scaleSpan scaleMul fuel d2.1 placed (attempts + 1)
      else if estimateSlopeRadians hf 2 x z > (maxSlopeDeg : ℝ) * Real.pi / 180 then
        uniformPassLoop hf width depth count cap minDistSq maxSlopeDeg
          scaleBase scaleSpan scaleMul fuel d2.1 placed (attempts + 1)
      else
        let d3 := mulberryNext d2.1
        let d4 := mulberryNext d3.1
        let inst : PlacedInstance :=
          { x := x, z := z, yaw := (d4.2 : ℝ) * Real.pi * 2,
            scale := (((scaleBase + d3.2 * scaleSpan) * scaleMul : ℚ) : ℝ) }
        let rest := uniformPassLoop hf width depth count cap minDistSq maxSlopeDeg
          scaleBase scaleSpan scaleMul fuel d4.1 (placed + 1) (attempts + 1)
        (inst :: rest.1, rest.2)
    else ([], attempts)

/-- `Decor.placeTrees`: uniform pass with `mulberry32(seed)`, spawn
clearance 30, slope cap 55°, attempt cap `treeCount * 25`. -/
noncomputable def placeTrees (hf : ℝ → ℝ → ℝ) (width depth : ℚ) (cfg : DecorConfig) :
    List PlacedInstance × ℕ :=
  uniformPassLoop hf width depth cfg.treeCount (cfg.treeCount * 25) (30 * 30) 55
    0.75 0.6 5 (cfg.treeCount * 25 + 1) (seedInit cfg.seed) 0 0

/-- `Decor.placeRocks`: uniform pass with `mulberry32(seed + 99)`, spawn
clearance 25, slope cap 65°, attempt cap `rockCount * 35`. -/
noncomputable def placeRocks (hf : ℝ → ℝ → ℝ) (width depth : ℚ) (cfg : DecorConfig) :
    List PlacedInstance × ℕ :=
  uniformPassLoop hf width depth cfg.rockCount (cfg.rockCount * 35) (25 * 25) 65
    0.6 1.2 1 (cfg.rockCount * 35 + 1) (seedInit (cfg.seed + 99)) 0 0

theorem uniformPassLoop_forall (hf : ℝ → ℝ → ℝ) (width depth : ℚ)
    (count cap : ℕ) (minDistSq maxSlopeDeg : ℚ) (sb ss sm : ℚ) (fuel : ℕ) :
    ∀ (st placed attempts : ℕ),
      (uniformPassLoop hf width depth count cap minDistSq maxSlopeDeg sb ss sm
          fuel st placed attempts).1.Forall fun i =>
        (minDistSq : ℝ) ≤ i.x * i.x + i.z * i.z ∧
          estimateSlopeRadians hf 2 i.x i.z ≤ (maxSlopeDeg : ℝ) * Real.pi / 180 := by
  classical
  induction fuel with
  | zero =>
    intro st placed attempts
    have h0 : uniformPassLoop hf width depth count cap minDistSq maxSlopeDeg sb ss sm
        0 st placed attempts = ([], attempts) := rfl
    rw [h0]
    simp
  | succ f ih =>
    intro st placed attempts
    rw [uniformPassLoop]
    split
    · dsimp only
      split
      · exact ih _ _ _
      · split
        · exact ih _ _ _
        · rename_i hcond hdist hslope
          rw [List.forall_cons]
          exact ⟨⟨not_lt.mp hdist, not_lt.mp hslope⟩, ih _ _ _⟩
    · simp

theorem uniformPassLoop_length (hf : ℝ → ℝ → ℝ) (width depth : ℚ)
    (count cap : ℕ) (minDistSq maxSlopeDeg : ℚ) (sb ss sm : ℚ) (fuel : ℕ) :
    ∀ (st placed attempts : ℕ),
      (uniformPassLoop hf width depth count cap minDistSq maxSlopeDeg sb ss sm
          fuel st placed attempts).1.length + placed ≤ max count placed := by
  classical
  induction fuel with
  | zero =>
    intro st placed attempts
    have h0 : uniformPassLoop hf width depth count cap minDistSq maxSlopeDeg sb ss sm
        0 st placed attempts = ([], attempts) := rfl
    rw [h0]
    simp only [List.length_nil]
    omega
  | succ f ih =>
    intro st placed attempts
    rw [uniformPassLoop]
    split
    · dsimp only
      split
      · exact ih _ _ _
      · split
        · exact ih _ _ _
        · rename_i hcond hdist hslope
          have := ih (mulberryNext (mulberryNext (mulberryNext
              (mulberryNext st).1).1).1).1 (placed + 1) (attempts + 1)
          simp only [List.length_cons]
          omega
    · rename_i hcond
      simp only [List.length_nil]
      omega

theorem uniformPassLoop_attempts (hf : ℝ → ℝ → ℝ) (width depth : ℚ)
    (count cap : ℕ) (minDistSq maxSlopeDeg : ℚ) (sb ss sm : ℚ) (fuel : ℕ) :
    ∀ (st placed attempts : ℕ), attempts ≤ cap →
      (uniformPassLoop hf width depth count cap minDistSq maxSlopeDeg sb ss sm
          fuel st placed attempts).2 ≤ cap := by
  classical
  induction fuel with
  | zero =>
    intro st placed attempts h
    have h0 : uniformPassLoop hf width depth count cap minDistSq maxSlopeDeg sb ss sm
        0 st placed attempts = ([], attempts) := rfl
    rw [h0]
    exact h
  | succ f ih =>
    intro st placed attempts h
    rw [uniformPassLoop]
    split
    · rename_i hcond
      dsimp only
      split
      · exact ih _ _ _ (by omega)
      · split
        · exact ih _ _ _ (by omega)
        · exact ih _ _ _ (by omega)
    · exact h

/-- The cluster-center generation of `placeDenseTrees`: each generated
center draws a sign for each axis (`rand() > 0.5 ? 1 : -1`) and a band
position `(bandMin + rand() * (bandMax - bandMin)) * half`, with
`bandMin = 0.45`, `bandMax = 0.6`. -/
def genDenseCenters (halfW halfD : ℚ) : ℕ → ℕ → ℕ × List (ℝ × ℝ)
  | st, 0 => (st, [])
  | st, n + 1 =>
    let d1 := mulberryNext st
    let signX : ℚ := if d1.2 > 0.5 then 1 else -1
    let d2 := mulberryNext d1.1
    let signZ : ℚ := if d2.2 > 0.5 then 1 else -1
    let d3 := mulberryNext d2.1
    let cx : ℚ := signX * (0.45 + d3.2 * (0.6 - 0.45)) * halfW
    let d4 := mulberryNext d3.1
    let cz : ℚ := signZ * (0.45 + d4.2 * (0.6 - 0.45)) * halfD
    let rest := genDenseCenters halfW halfD d4.1 n
    (rest.1, ((cx : ℝ), (cz : ℝ)) :: rest.2)

open Classical in
/-- The rejection-sampling loop of `placeDenseTrees` (`while placed <
denseTreeCount && attempts < denseTreeCount * 45`): pick a cluster center
(`centers[floor(rand() * centers.length)]`), sample an area-uniform point of
the disk of radius 110 around it, reject when the squared distance from the
spawn origin is below `45²` or the estimated slope exceeds 35°, otherwise
draw scale `(0.9 + rand() * 0.7) * 5` and yaw and record the instance. -/
noncomputable def placeDenseTreesLoop (hf : ℝ → ℝ → ℝ) (count cap : ℕ)
    (centers : List (ℝ × ℝ)) : ℕ → ℕ → ℕ → ℕ → List PlacedInstance × ℕ
  | 0, _, _, attempts => ([], attempts)
  | fuel + 1, st, placed, attempts =>
    if placed < count ∧ attempts < cap then
      let d1 := mulberryNext st
      let center := centers.getD (⌊d1.2 * centers.length⌋).toNat (0, 0)
      let d2 := mulberryNext d1.1
      let angle : ℝ := (d2.2 : ℝ) * Real.pi * 2
      let d3 := mulberryNext d2.1
      let radius : ℝ := Real.sqrt (d3.2 : ℝ) * 110
      let x := center.1 + Real.cos angle * radius
      let z := center.2 + Real.sin angle * radius
      if x * x + z * z < 45 * 45 then
        placeDenseTreesLoop hf count cap centers fuel d3.1 placed (attempts + 1)
      else if estimateSlopeRadians hf 2 x z > 35 * Real.pi / 180 then
        placeDenseTreesLoop hf count cap centers fuel d3.1 placed (attempts + 1)
      else
        let d4 := mulberryNext d3.1
        let d5 := mulberryNext d4.1
        let inst : PlacedInstance :=
          { x := x, z := z, yaw := (d5.2 : ℝ) * Real.pi * 2,
            scale := (((0.9 + d4.2 * 0.7) * 5 : ℚ) : ℝ) }
        let rest := placeDenseTreesLoop hf count cap centers fuel d5.1 (placed + 1)
          (attempts + 1)
        (inst :: rest.1, rest.2)
    else ([], attempts)

/-- `Decor.placeDenseTrees`: seeded with `mulberry32(seed + 133)`; the
cluster centers are the optional `denseTarget` followed by generated band
centers up to `clusterCount = 2`. -/
noncomputable def placeDenseTrees (hf : ℝ → ℝ → ℝ) (width depth : ℚ) (cfg : DecorConfig) :
    List PlacedInstance × ℕ :=
  let st0 := seedInit (cfg.seed + 133)
  let initCenters : List (ℝ × ℝ) :=
    match cfg.denseTarget with
    | some t => [t]
    | none => []
  let gen := genDenseCenters (width / 2) (depth / 2) st0 (2 - initCenters.length)
  placeDenseTreesLoop hf cfg.denseTreeCount (cfg.denseTreeCount * 45)
    (initCenters ++ gen.2) (cfg.denseTreeCount * 45 + 1) gen.1 0 0

theorem placeDenseTreesLoop_forall (hf : ℝ → ℝ → ℝ) (count cap : ℕ)
    (centers : List (ℝ × ℝ)) (fuel : ℕ) :
    ∀ (st placed attempts : ℕ),
      (placeDenseTreesLoop hf count cap centers fuel st placed attempts).1.Forall fun i =>
        (45 * 45 : ℝ) ≤ i.x * i.x + i.z * i.z ∧
          estimateSlopeRadians hf 2 i.x i.z ≤ 35 * Real.pi / 180 := by
  classical
  induction fuel with
  | zero =>
    intro st placed attempts
    have h0 : placeDenseTreesLoop hf count cap centers 0 st placed attempts
        = ([], attempts) := rfl
    rw [h0]
    simp
  | succ f ih =>
    intro st placed attempts
    rw [placeDenseTreesLoop]
    split
    · dsimp only
      split
      · exact ih _ _ _
      · split
        · exact ih _ _ _
        · rename_i hcond hdist hslope
          rw [List.forall_cons]
          exact ⟨⟨not_lt.mp hdist, not_lt.mp hslope⟩, ih _ _ _⟩
    · simp

theorem placeDenseTreesLoop_length (hf : ℝ → ℝ → ℝ) (count cap : ℕ)
    (centers : List (ℝ × ℝ)) (fuel : ℕ) :
    ∀ (st placed attempts : ℕ),
      (placeDenseTreesLoop hf count cap centers fuel st placed attempts).1.length + placed
        ≤ max count placed := by
  classical
  induction fuel with
  | zero =>
    intro st placed attempts
    have h0 : placeDenseTreesLoop hf count cap centers 0 st placed attempts
        = ([], attempts) := rfl
    rw [h0]
    simp only [List.length_nil]
    omega
  | succ f ih =>
    intro st placed attempts
    rw [placeDenseTreesLoop]
    split
    · dsimp only
      split
      · exact ih _ _ _
      · split
        · exact ih _ _ _
        · rename_i hcond hdist hslope
          have := ih (mulberryNext (mulberryNext (mulberryNext (mulberryNext
              (mulberryNext st).1).1).1).1).1 (placed + 1) (attempts + 1)
          simp only [List.length_cons]
          omega
    · rename_i hcond
      simp only [List.length_nil]
      omega

theorem placeDenseTreesLoop_attempts (hf : ℝ → ℝ → ℝ) (count cap : ℕ)
    (centers : List (ℝ × ℝ)) (fuel : ℕ) :
    ∀ (st placed attempts : ℕ), attempts ≤ cap →
      (placeDenseTreesLoop hf count cap centers fuel st placed attempts).2 ≤ cap := by
  classical
  induction fuel with
  | zero =>
    intro st placed attempts h
    have h0 : placeDenseTreesLoop hf count cap centers 0 st placed attempts
        = ([], attempts) := rfl
    rw [h0]
    exact h
  | succ f ih =>
    intro st placed attempts h
    rw [placeDenseTreesLoop]
    split
    · rename_i hcond
      dsimp only
      split
      · exact ih _ _ _ (by omega)
      · split
        · exact ih _ _ _ (by omega)
        · exact ih _ _ _ (by omega)
    · exact h

end Decor

/-- `BerriesConfig` (defaults: seed 777, totalCount 70, clusterMin 4,
clusterMax 6, clusterRadius 14, minDistanceFromSpawn 40,
pickupRadius 1.8). -/
structure BerriesConfig where
  seed : ℤ
  totalCount : ℤ
  clusterMin : ℤ
  clusterMax : ℤ
  clusterRadius : ℚ
  minDistanceFromSpawn : ℚ
  pickupRadius : ℚ

namespace Berries

/-- The cluster-size partition loop of `Berries.reset`:
`while remaining > 0 { count = min(remaining, clusterMin + floor(rand() *
(clusterMax - clusterMin + 1))); remaining -= count }`.  `fuel` bounds the
recursion; with `clusterMin ≥ 1` each iteration shrinks `remaining` by at
least 1, so `fuel = totalCount.toNat` never runs out. -/
def clusterCounts (cMin cMax : ℤ) : ℕ → ℕ → ℤ → ℕ × List ℤ
  | 0, st, _ => (st, [])
  | fuel + 1, st, remaining =>
    if 0 < remaining then
      let d := mulberryNext st
      let c := min remaining (cMin + ⌊d.2 * ((cMax : ℚ) - (cMin : ℚ) + 1)⌋)
      let rest := clusterCounts cMin cMax fuel d.1 (remaining - c)
      (rest.1, c :: rest.2)
    else (st, [])

open Classical in
/-- The cluster-center search of `Berries.reset` (`while tries < 80`):
draw a uniform point of the world footprint, reject when it is within
`minDistanceFromSpawn` of the spawn or the estimated slope (epsilon 2.2)
exceeds 45°; on success record `(x, getHeightAt(x, z), z)`; if all 80
tries fail the center remains the default `(0, 0, 0)`. -/
noncomputable def clusterCenterLoop (hf : ℝ → ℝ → ℝ) (width depth minD : ℚ) :
    ℕ → ℕ → ℕ × (ℝ × ℝ × ℝ)
  | 0, st => (st, (0, 0, 0))
  | fuel + 1, st =>
    let d1 := mulberryNext st
    let d2 := mulberryNext d1.1
    let x : ℝ := (((d1.2 - 1 / 2) * width : ℚ) : ℝ)
    let z : ℝ := (((d2.2 - 1 / 2) * depth : ℚ) : ℝ)
    if x * x + z * z < (minD : ℝ) * (minD : ℝ) then
      clusterCenterLoop hf width depth minD fuel d2.1
    else if estimateSlopeRadians hf 2.2 x z > 45 * Real.pi / 180 then
      clusterCenterLoop hf width depth minD fuel d2.1
    else
      (d2.1, (x, hf x z, z))

open Classical in
/-- The per-berry placement loop of `Berries.reset`
(`while !placed && berryTries < 30`): sample an area-uniform point of the
disk of radius `clusterRadius` around the cluster center, reject when it is
within `minDistanceFromSpawn` of the spawn or the estimated slope (epsilon
2.2) exceeds 50°; on success draw the base scale `0.85 + rand() * 0.55`
and the pulse phase `rand() * 2π`, and record the instance at
`(x, getHeightAt(x, z) + 0.6, z)`, uncollected with `popTime = 0`. -/
noncomputable def berryTryLoop (hf : ℝ → ℝ → ℝ) (minD clusterRadius : ℚ) (cx cz : ℝ) :
    ℕ → ℕ → ℕ × Option BerryInstance
  | 0, st => (st, none)
  | fuel + 1, st =>
    let d1 := mulberryNext st
    let angle : ℝ := (d1.2 : ℝ) * Real.pi * 2
    let d2 := mulberryNext d1.1
    let r : ℝ := Real.sqrt (d2.2 : ℝ) * (clusterRadius : ℝ)
    let x := cx + Real.cos angle * r
    let z := cz + Real.sin angle * r
    if x * x + z * z < (minD : ℝ) * (minD : ℝ) then
      berryTryLoop hf minD clusterRadius cx cz fuel d2.1
    else if estimateSlopeRadians hf 2.2 x z > 50 * Real.pi / 180 then
      berryTryLoop hf minD clusterRadius cx cz fuel d2.1
    else
      let d3 := mulberryNext d2.1
      let d4 := mulberryNext d3.1
      (d4.1, some { position := ⟨x, hf x z + 0.6, z⟩, collected := false,
                    baseScale := 0.85 + (d3.2 : ℝ) * 0.55,
                    phase := (d4.2 : ℝ) * Real.pi * 2, popTime := 0 })

/-- `for (let i = 0; i < cluster.count; i++)`: one `berryTryLoop` (30
tries) per requested berry; a berry whose tries are exhausted is simply not
pushed. -/
noncomputable def clusterBerriesLoop (hf : ℝ → ℝ → ℝ) (minD clusterRadius : ℚ)
    (cx cz : ℝ) : ℕ → ℕ → ℕ × List BerryInstance
  | 0, st => (st, [])
  | n + 1, st =>
    let tryb := berryTryLoop hf minD clusterRadius cx cz 30 st
    let rest := clusterBerriesLoop hf minD clusterRadius cx cz n tryb.1
    (rest.1,
      match tryb.2 with
      | some b => b :: rest.2
      | none => rest.2)

/-- `for (const cluster of clusters)`: search the cluster center (80
tries), then place the cluster's berries around it. -/
noncomputable def berriesClustersLoop (hf : ℝ → ℝ → ℝ) (width depth minD clusterRadius : ℚ) :
    List ℤ → ℕ → ℕ × List BerryInstance
  | [], st => (st, [])
  | c :: rest, st =>
    let ctr := clusterCenterLoop hf width depth minD 80 st
    let berries := clusterBerriesLoop hf minD clusterRadius ctr.2.1 ctr.2.2.2 c.toNat ctr.1
    let more := berriesClustersLoop hf width depth minD clusterRadius rest berries.1
    (more.1, berries.2 ++ more.2)

/-- `Berries.reset`: seed the PRNG with
`cfg.seed + Math.floor(Math.random() * 1_000_000)` — the ambient
`Math.random()` draw is the `ambient` argument — then partition the total
count into cluster sizes and place each cluster. -/
noncomputable def reset (hf : ℝ → ℝ → ℝ) (width depth : ℚ) (cfg : BerriesConfig)
    (ambient : ℚ) : List BerryInstance :=
  let st := seedInit (cfg.seed + ⌊ambient * 1000000⌋)
  let parts := clusterCounts cfg.clusterMin cfg.clusterMax cfg.totalCount.toNat st
    cfg.totalCount
  (berriesClustersLoop hf width depth cfg.minDistanceFromSpawn cfg.clusterRadius
    parts.2 parts.1).2

theorem berryTryLoop_forall (hf : ℝ → ℝ → ℝ) (minD clusterRadius : ℚ) (cx cz : ℝ)
    (fuel : ℕ) :
    ∀ (st : ℕ) (b : BerryInstance),
      (berryTryLoop hf minD clusterRadius cx cz fuel st).2 = some b →
      ((minD : ℝ) * (minD : ℝ) ≤ b.position.x * b.position.x + b.position.z * b.position.z ∧
        estimateSlopeRadians hf 2.2 b.position.x b.position.z ≤ 50 * Real.pi / 180) := by
  classical
  induction fuel with
  | zero =>
    intro st b h
    exact absurd h (by simp [berryTryLoop])
  | succ f ih =>
    intro st b h
    rw [berryTryLoop] at h
    dsimp only at h
    split at h
    · exact ih _ _ h
    · split at h
      · exact ih _ _ h
      · rename_i hdist hslope
        dsimp only at h
        cases h
        exact ⟨not_lt.mp hdist, not_lt.mp hslope⟩

theorem clusterBerriesLoop_forall (hf : ℝ → ℝ → ℝ) (minD clusterRadius : ℚ)
    (cx cz : ℝ) (n : ℕ) :
    ∀ (st : ℕ),
      (clusterBerriesLoop hf minD clusterRadius cx cz n st).2.Forall fun b =>
        (minD : ℝ) * (minD : ℝ) ≤ b.position.x * b.position.x + b.position.z * b.position.z ∧
          estimateSlopeRadians hf 2.2 b.position.x b.position.z ≤ 50 * Real.pi / 180 := by
  classical
  induction n with
  | zero =>
    intro st
    simp [clusterBerriesLoop]
  | succ k ih =>
    intro st
    rw [clusterBerriesLoop]
    dsimp only
    rcases htry : (berryTryLoop hf minD clusterRadius cx cz 30 st).2 with - | b
    · exact ih _
    · rw [List.forall_cons]
      exact ⟨berryTryLoop_forall hf minD clusterRadius cx cz 30 st b htry, ih _⟩

theorem clusterBerriesLoop_length (hf : ℝ → ℝ → ℝ) (minD clusterRadius : ℚ)
    (cx cz : ℝ) (n : ℕ) :
    ∀ (st : ℕ), (clusterBerriesLoop hf minD clusterRadius cx cz n st).2.length ≤ n := by
  classical
  induction n with
  | zero =>
    intro st
    simp [clusterBerriesLoop]
  | succ k ih =>
    intro st
    rw [clusterBerriesLoop]
    dsimp only
    rcases htry : (berryTryLoop hf minD clusterRadius cx cz 30 st).2 with - | b
    · exact le_trans (ih _) (by omega)
    · simp only [List.length_cons]
      exact Nat.succ_le_succ (ih _)

theorem berriesClustersLoop_forall (hf : ℝ → ℝ → ℝ) (width depth minD clusterRadius : ℚ)
    (counts : List ℤ) :
    ∀ (st : ℕ),
      (berriesClustersLoop hf width depth minD clusterRadius counts st).2.Forall fun b =>
        (minD : ℝ) * (minD : ℝ) ≤ b.position.x * b.position.x + b.position.z * b.position.z ∧
          estimateSlopeRadians hf 2.2 b.position.x b.position.z ≤ 50 * Real.pi / 180 := by
  classical
  induction counts with
  | nil =>
    intro st
    simp [berriesClustersLoop]
  | cons c rest ih =>
    intro st
    rw [berriesClustersLoop]
    dsimp only
    rw [List.forall_iff_forall_mem]
    intro b hb
    rw [List.mem_append] at hb
    rcases hb with hb | hb
    · have := clusterBerriesLoop_forall hf minD clusterRadius
        (clusterCenterLoop hf width depth minD 80 st).2.1
        (clusterCenterLoop hf width depth minD 80 st).2.2.2 c.toNat
        (clusterCenterLoop hf width depth minD 80 st).1
      rw [List.forall_iff_forall_mem] at this
      exact this b hb
    · have := ih (clusterBerriesLoop hf minD clusterRadius
        (clusterCenterLoop hf width depth minD 80 st).2.1
        (clusterCenterLoop hf width depth minD 80 st).2.2.2 c.toNat
        (clusterCenterLoop hf width depth minD 80 st).1).1
      rw [List.forall_iff_forall_mem] at this
      exact this b hb

theorem berriesClustersLoop_length (hf : ℝ → ℝ → ℝ) (width depth minD clusterRadius : ℚ)
    (counts : List ℤ) :
    ∀ (st : ℕ),
      (berriesClustersLoop hf width depth minD clusterRadius counts st).2.length
        ≤ (counts.map Int.toNat).sum := by
  classical
  induction counts with
  | nil =>
    intro st
    simp [berriesClustersLoop]
  | cons c rest ih =>
    intro st
    rw [berriesClustersLoop]
    dsimp only
    rw [List.length_append, List.map_cons, List.sum_cons]
    have h1 := clusterBerriesLoop_length hf minD clusterRadius
      (clusterCenterLoop hf width depth minD 80 st).2.1
      (clusterCenterLoop hf width depth minD 80 st).2.2.2 c.toNat
      (clusterCenterLoop hf width depth minD 80 st).1
    have h2 := ih (clusterBerriesLoop hf minD clusterRadius
      (clusterCenterLoop hf width depth minD 80 st).2.1
      (clusterCenterLoop hf width depth minD 80 st).2.2.2 c.toNat
      (clusterCenterLoop hf width depth minD 80 st).1).1
    omega

theorem clusterCounts_sum (cMin cMax : ℤ) (hmin : 1 ≤ cMin) (hminmax : cMin ≤ cMax)
    (fuel : ℕ) :
    ∀ (st : ℕ) (remaining : ℤ),
      (((clusterCounts cMin cMax fuel st remaining).2.map Int.toNat).sum : ℤ)
        ≤ max remaining 0 := by
  induction fuel with
  | zero =>
    intro st remaining
    simp [clusterCounts]
  | succ f ih =>
    intro st remaining
    rw [clusterCounts]
    split
    · rename_i hrem
      dsimp only
      rw [List.map_cons, List.sum_cons]
      set u := (mulberryNext st).2 with hu
      have hu0 : 0 ≤ u := mulberry_val_nonneg st
      have hspan : (0 : ℚ) ≤ (cMax : ℚ) - (cMin : ℚ) + 1 := by
        have : (cMin : ℚ) ≤ (cMax : ℚ) := by exact_mod_cast hminmax
        linarith
      have hfloor0 : 0 ≤ ⌊u * ((cMax : ℚ) - (cMin : ℚ) + 1)⌋ :=
        Int.floor_nonneg.mpr (mul_nonneg hu0 hspan)
      set c := min remaining (cMin + ⌊u * ((cMax : ℚ) - (cMin : ℚ) + 1)⌋) with hc
      have hc1 : 1 ≤ c := by
        rw [hc]
        apply le_min (by omega)
        omega
      have hcr : c ≤ remaining := min_le_left _ _
      have hrec := ih (mulberryNext st).1 (remaining - c)
      push_cast
      push_cast at hrec
      have hctoNat : (c.toNat : ℤ) = c := Int.toNat_of_nonneg (by omega)
      rw [hctoNat]
      omega
    · dsimp only
      simp

end Berries

namespace OwnerGoal

open Classical in
/-- The siting loop of `OwnerGoal.reset` (`while !placed && tries < 60`):
each try draws `Math.random()` twice (angle and radius — the stream index
`i` advances by 2 per try), places the yard at
`(cos(angle)·radius, sin(angle)·radius)`, and accepts when the estimated
slope (epsilon 2.0) is at most 28°. -/
noncomputable def resetLoop (hf : ℝ → ℝ → ℝ) (minR maxR : ℚ) (random : ℕ → ℝ) :
    ℕ → ℕ → Option (ℝ × ℝ × ℝ)
  | 0, _ => none
  | fuel + 1, i =>
    let angle : ℝ := random i * Real.pi * 2
    let radius : ℝ := (minR : ℝ) + random (i + 1) * ((maxR : ℝ) - (minR : ℝ))
    let x := Real.cos angle * radius
    let z := Real.sin angle * radius
    if estimateSlopeRadians hf 2 x z > 28 * Real.pi / 180 then
      resetLoop hf minR maxR random fuel (i + 2)
    else
      some (x, hf x z, z)

/-- `OwnerGoal.reset`: the siting radius band is
`[min(halfW, halfD) - 160, min(halfW, halfD) - 60]`; the loop draws from
ambient `Math.random()` (the `random` stream); on total failure the yard
falls back to the origin `(0, getHeightAt(0,0), 0)`. -/
noncomputable def reset (hf : ℝ → ℝ → ℝ) (width depth : ℚ) (random : ℕ → ℝ) :
    ℝ × ℝ × ℝ :=
  let minR := min (width / 2) (depth / 2) - 160
  let maxR := min (width / 2) (depth / 2) - 60
  match resetLoop hf minR maxR random 60 0 with
  | some p => p
  | none => (0, hf 0 0, 0)

theorem resetLoop_first_accepts (hf : ℝ → ℝ → ℝ) (minR maxR : ℚ) (random : ℕ → ℝ)
    (fuel i : ℕ)
    (hflat : ¬(estimateSlopeRadians hf 2
        (Real.cos (random i * Real.pi * 2)
          * ((minR : ℝ) + random (i + 1) * ((maxR : ℝ) - (minR : ℝ))))
        (Real.sin (random i * Real.pi * 2)
          * ((minR : ℝ) + random (i + 1) * ((maxR : ℝ) - (minR : ℝ))))
        > 28 * Real.pi / 180)) :
    resetLoop hf minR maxR random (fuel + 1) i
      = some (Real.cos (random i * Real.pi * 2)
            * ((minR : ℝ) + random (i + 1) * ((maxR : ℝ) - (minR : ℝ))),
          hf (Real.cos (random i * Real.pi * 2)
            * ((minR : ℝ) + random (i + 1) * ((maxR : ℝ) - (minR : ℝ))))
            (Real.sin (random i * Real.pi * 2)
              * ((minR : ℝ) + random (i + 1) * ((maxR : ℝ) - (minR : ℝ)))),
          Real.sin (random i * Real.pi * 2)
            * ((minR : ℝ) + random (i + 1) * ((maxR : ℝ) - (minR : ℝ)))) := by
  rw [resetLoop]
  rw [if_neg hflat]

end OwnerGoal

/-- On a flat (constant-height) terrain the central-difference slope
estimate is zero. -/
theorem estimateSlopeRadians_const (c : ℝ) (e x z : ℝ) :
    estimateSlopeRadians (fun _ _ => c) e x z = 0 := by
  unfold estimateSlopeRadians
  simp

/-- **C1 (counterexample).** With a fixed seed and fixed configuration
(flat terrain, width = depth = 1000), two runs of the goal-structure siting
pass emit different positions, because `OwnerGoal.reset` draws ambient
`Math.random()` directly: a run whose ambient draws are all 0 places the
yard at `(340, 0, 0)`, and a run whose ambient draws are all 1/2 places it
at `(-390, 0, 0)`. -/
theorem world_placement_determinism_counterexample :
    OwnerGoal.reset (fun _ _ => 0) 1000 1000 (fun _ => 0)
      ≠ OwnerGoal.reset (fun _ _ => 0) 1000 1000 (fun _ => 1 / 2) := by
  classical
  have hcond : ∀ x z : ℝ,
      ¬(estimateSlopeRadians (fun _ _ => (0 : ℝ)) 2 x z > 28 * Real.pi / 180) := by
    intro x z
    rw [estimateSlopeRadians_const]
    exact not_lt.mpr (by positivity)
  have hA : OwnerGoal.reset (fun _ _ => 0) 1000 1000 (fun _ => 0) = (340, 0, 0) := by
    unfold OwnerGoal.reset
    dsimp only
    rw [show (60 : ℕ) = 59 + 1 from rfl]
    rw [OwnerGoal.resetLoop_first_accepts (fun _ _ => 0) _ _ (fun _ => 0) 59 0
      (hcond _ _)]
    norm_num
  have hB : OwnerGoal.reset (fun _ _ => 0) 1000 1000 (fun _ => 1 / 2) = (-390, 0, 0) := by
    unfold OwnerGoal.reset
    dsimp only
    rw [show (60 : ℕ) = 59 + 1 from rfl]
    rw [OwnerGoal.resetLoop_first_accepts (fun _ _ => 0) _ _ (fun _ => 1 / 2) 59 0
      (hcond _ _)]
    have hangle : (1 / 2 : ℝ) * Real.pi * 2 = Real.pi := by ring
    rw [hangle, Real.cos_pi, Real.sin_pi]
    norm_num
  rw [hA, hB]
  simp only [ne_eq, Prod.mk.injEq, not_and]
  intro h
  norm_num at h

/-- **C1 (amended).** `getHeightAt` and the tree/dense-tree/rock placement
passes are pure functions of the seed and configuration (they appear as
such in this embedding, consuming only the seeded `mulberry32` stream), but
the berry pass and the goal siting additionally consume ambient
`Math.random()` entropy: `Berries.reset` reseeds with
`seed + floor(Math.random() * 10⁶)` and is reproducible exactly when that
ambient draw has equal `floor(ambient * 10⁶)`, and `OwnerGoal.reset` is
reproducible exactly when its ambient draw stream is equal. -/
theorem world_placement_determinism_amended :
    (∀ (hf : ℝ → ℝ → ℝ) (width depth : ℚ) (cfg : BerriesConfig) (a₁ a₂ : ℚ),
      ⌊a₁ * 1000000⌋ = ⌊a₂ * 1000000⌋ →
      Berries.reset hf width depth cfg a₁ = Berries.reset hf width depth cfg a₂) ∧
    (∀ (hf : ℝ → ℝ → ℝ) (width depth : ℚ) (r₁ r₂ : ℕ → ℝ), (∀ n, r₁ n = r₂ n) →
      OwnerGoal.reset hf width depth r₁ = OwnerGoal.reset hf width depth r₂) := by
  constructor
  · intro hf width depth cfg a₁ a₂ hfl
    unfold Berries.reset
    rw [hfl]
  · intro hf width depth r₁ r₂ hr
    have : r₁ = r₂ := funext hr
    rw [this]

/-- Witness for the amended C1: two ambient draws with the same
`floor(ambient * 10⁶)` (0 and 1/3000000), and two equal draw streams. -/
theorem world_placement_determinism_amended_witness :
    (⌊(0 : ℚ) * 1000000⌋ = ⌊(1 / 3000000 : ℚ) * 1000000⌋ ∧
      Berries.reset (fun _ _ => 0) 1000 1000 ⟨777, 70, 4, 6, 14, 40, 9 / 5⟩ 0
        = Berries.reset (fun _ _ => 0) 1000 1000 ⟨777, 70, 4, 6, 14, 40, 9 / 5⟩
            (1 / 3000000)) ∧
    OwnerGoal.reset (fun _ _ => 0) 1000 1000 (fun _ => 0)
      = OwnerGoal.reset (fun _ _ => 0) 1000 1000 (fun n => 0 * n) := by
  have hfl : ⌊(0 : ℚ) * 1000000⌋ = ⌊(1 / 3000000 : ℚ) * 1000000⌋ := by
    rw [show (1 / 3000000 : ℚ) * 1000000 = 1 / 3 by norm_num]
    rw [show (0 : ℚ) * 1000000 = 0 by norm_num]
    rw [Int.floor_eq_zero_iff.mpr (by constructor <;> norm_num)]
    rw [Int.floor_eq_zero_iff.mpr (by constructor <;> norm_num)]
  exact ⟨⟨hfl, world_placement_determinism_amended.1 (fun _ _ => 0) 1000 1000
      ⟨777, 70, 4, 6, 14, 40, 9 / 5⟩ 0 (1 / 3000000) hfl⟩,
    world_placement_determinism_amended.2 (fun _ _ => 0) 1000 1000 (fun _ => 0)
      (fun n => 0 * n) (fun n => by ring)⟩

theorem le_sqrt_of_mul_self_le (m s : ℝ) (h : m * m ≤ s) : m ≤ Real.sqrt s :=
  Real.le_sqrt_of_sq_le (by rw [pow_two]; exact h)

/-- **C5.** Every instance emitted by a placement pass satisfies its type's
slope and spawn-clearance constraints: trees are at distance ≥ 30 from the
origin with estimated slope ≤ 55°, dense-cluster trees at distance ≥ 45
with slope ≤ 35°, rocks at distance ≥ 25 with slope ≤ 65°, and berries at
distance ≥ `minDistanceFromSpawn` with slope ≤ 50° — including berries
placed around a cluster center whose own 80-try search was exhausted (the
per-berry checks still apply around the fallback center). -/
theorem placement_slope_distance_constraints :
    (∀ (hf : ℝ → ℝ → ℝ) (width depth : ℚ) (cfg : DecorConfig),
      (Decor.placeTrees hf width depth cfg).1.Forall fun i =>
        (30 : ℝ) ≤ Real.sqrt (i.x * i.x + i.z * i.z) ∧
          estimateSlopeRadians hf 2 i.x i.z ≤ 55 * Real.pi / 180) ∧
    (∀ (hf : ℝ → ℝ → ℝ) (width depth : ℚ) (cfg : DecorConfig),
      (Decor.placeDenseTrees hf width depth cfg).1.Forall fun i =>
        (45 : ℝ) ≤ Real.sqrt (i.x * i.x + i.z * i.z) ∧
          estimateSlopeRadians hf 2 i.x i.z ≤ 35 * Real.pi / 180) ∧
    (∀ (hf : ℝ → ℝ → ℝ) (width depth : ℚ) (cfg : DecorConfig),
      (Decor.placeRocks hf width depth cfg).1.Forall fun i =>
        (25 : ℝ) ≤ Real.sqrt (i.x * i.x + i.z * i.z) ∧
          estimateSlopeRadians hf 2 i.x i.z ≤ 65 * Real.pi / 180) ∧
    (∀ (hf : ℝ → ℝ → ℝ) (width depth : ℚ) (cfg : BerriesConfig) (ambient : ℚ),
      (Berries.reset hf width depth cfg ambient).Forall fun b =>
        (cfg.minDistanceFromSpawn : ℝ)
            ≤ Real.sqrt (b.position.x * b.position.x + b.position.z * b.position.z) ∧
          estimateSlopeRadians hf 2.2 b.position.x b.position.z
            ≤ 50 * Real.pi / 180) := by
  refine ⟨?_, ?_, ?_, ?_⟩
  · intro hf width depth cfg
    apply List.Forall.imp ?_ (Decor.uniformPassLoop_forall hf width depth cfg.treeCount
      (cfg.treeCount * 25) (30 * 30) 55 0.75 0.6 5 (cfg.treeCount * 25 + 1)
      (seedInit cfg.seed) 0 0)
    rintro i ⟨hd, hs⟩
    refine ⟨le_sqrt_of_mul_self_le 30 _ ?_, hs⟩
    calc (30 : ℝ) * 30 = ((30 * 30 : ℚ) : ℝ) := by norm_num
      _ ≤ i.x * i.x + i.z * i.z := hd
  · intro hf width depth cfg
    unfold Decor.placeDenseTrees
    apply List.Forall.imp ?_ (Decor.placeDenseTreesLoop_forall hf cfg.denseTreeCount
      (cfg.denseTreeCount * 45) _ (cfg.denseTreeCount * 45 + 1) _ 0 0)
    rintro i ⟨hd, hs⟩
    exact ⟨le_sqrt_of_mul_self_le 45 _ (by linarith [hd]), hs⟩
  · intro hf width depth cfg
    apply List.Forall.imp ?_ (Decor.uniformPassLoop_forall hf width depth cfg.rockCount
      (cfg.rockCount * 35) (25 * 25) 65 0.6 1.2 1 (cfg.rockCount * 35 + 1)
      (seedInit (cfg.seed + 99)) 0 0)
    rintro i ⟨hd, hs⟩
    refine ⟨le_sqrt_of_mul_self_le 25 _ ?_, hs⟩
    calc (25 : ℝ) * 25 = ((25 * 25 : ℚ) : ℝ) := by norm_num
      _ ≤ i.x * i.x + i.z * i.z := hd
  · intro hf width depth cfg ambient
    unfold Berries.reset
    apply List.Forall.imp ?_ (Berries.berriesClustersLoop_forall hf width depth
      cfg.minDistanceFromSpawn cfg.clusterRadius _ _)
    rintro b ⟨hd, hs⟩
    exact ⟨le_sqrt_of_mul_self_le _ _ hd, hs⟩

/-- **C6.** Each placement loop makes at most `count × K` candidate
attempts (trees `× 25`, dense-cluster trees `× 45`, rocks `× 35`; the berry
pass is bounded by 80 tries per cluster-center search and 30 tries per
berry), the passes are total functions (they complete normally — possibly
with fewer instances — rather than throwing), and the number of placed
instances never exceeds the requested count (for berries, the cluster sizes
partition `totalCount`, so at most `totalCount` berries are placed; this
needs the config sanity bounds `1 ≤ clusterMin ≤ clusterMax`). -/
theorem placement_attempt_caps :
    (∀ (hf : ℝ → ℝ → ℝ) (width depth : ℚ) (cfg : DecorConfig),
      (Decor.placeTrees hf width depth cfg).2 ≤ cfg.treeCount * 25 ∧
      (Decor.placeTrees hf width depth cfg).1.length ≤ cfg.treeCount) ∧
    (∀ (hf : ℝ → ℝ → ℝ) (width depth : ℚ) (cfg : DecorConfig),
      (Decor.placeDenseTrees hf width depth cfg).2 ≤ cfg.denseTreeCount * 45 ∧
      (Decor.placeDenseTrees hf width depth cfg).1.length ≤ cfg.denseTreeCount) ∧
    (∀ (hf : ℝ → ℝ → ℝ) (width depth : ℚ) (cfg : DecorConfig),
      (Decor.placeRocks hf width depth cfg).2 ≤ cfg.rockCount * 35 ∧
      (Decor.placeRocks hf width depth cfg).1.length ≤ cfg.rockCount) ∧
    (∀ (hf : ℝ → ℝ → ℝ) (width depth : ℚ) (cfg : BerriesConfig) (ambient : ℚ),
      1 ≤ cfg.clusterMin → cfg.clusterMin ≤ cfg.clusterMax →
      (Berries.reset hf width depth cfg ambient).length ≤ cfg.totalCount.toNat) := by
  refine ⟨?_, ?_, ?_, ?_⟩
  · intro hf width depth cfg
    constructor
    · exact Decor.uniformPassLoop_attempts hf width depth cfg.treeCount
        (cfg.treeCount * 25) (30 * 30) 55 0.75 0.6 5 (cfg.treeCount * 25 + 1)
        (seedInit cfg.seed) 0 0 (Nat.zero_le _)
    · unfold Decor.placeTrees
      have h := Decor.uniformPassLoop_length hf width depth cfg.treeCount
        (cfg.treeCount * 25) (30 * 30) 55 0.75 0.6 5 (cfg.treeCount * 25 + 1)
        (seedInit cfg.seed) 0 0
      omega
  · intro hf width depth cfg
    unfold Decor.placeDenseTrees
    dsimp only
    constructor
    · exact Decor.placeDenseTreesLoop_attempts hf cfg.denseTreeCount
        (cfg.denseTreeCount * 45) _ (cfg.denseTreeCount * 45 + 1) _ 0 0 (Nat.zero_le _)
    · have h := Decor.placeDenseTreesLoop_length hf cfg.denseTreeCount
        (cfg.denseTreeCount * 45)
        ((match cfg.denseTarget with | some t => [t] | none => []) ++
          (Decor.genDenseCenters (width / 2) (depth / 2) (seedInit (cfg.seed + 133))
            (2 - (match cfg.denseTarget with | some t => [t] | none => []).length)).2)
        (cfg.denseTreeCount * 45 + 1)
        (Decor.genDenseCenters (width / 2) (depth / 2) (seedInit (cfg.seed + 133))
          (2 - (match cfg.denseTarget with | some t => [t] | none => []).length)).1 0 0
      omega
  · intro hf width depth cfg
    constructor
    · exact Decor.uniformPassLoop_attempts hf width depth cfg.rockCount
        (cfg.rockCount * 35) (25 * 25) 65 0.6 1.2 1 (cfg.rockCount * 35 + 1)
        (seedInit (cfg.seed + 99)) 0 0 (Nat.zero_le _)
    · unfold Decor.placeRocks
      have h := Decor.uniformPassLoop_length hf width depth cfg.rockCount
        (cfg.rockCount * 35) (25 * 25) 65 0.6 1.2 1 (cfg.rockCount * 35 + 1)
        (seedInit (cfg.seed + 99)) 0 0
      omega
  · intro hf width depth cfg ambient hmin hminmax
    unfold Berries.reset
    dsimp only
    have hlen := Berries.berriesClustersLoop_length hf width depth
      cfg.minDistanceFromSpawn cfg.clusterRadius
      (Berries.clusterCounts cfg.clusterMin cfg.clusterMax cfg.totalCount.toNat
        (seedInit (cfg.seed + ⌊ambient * 1000000⌋)) cfg.totalCount).2
      (Berries.clusterCounts cfg.clusterMin cfg.clusterMax cfg.totalCount.toNat
        (seedInit (cfg.seed + ⌊ambient * 1000000⌋)) cfg.totalCount).1
    have hsum := Berries.clusterCounts_sum cfg.clusterMin cfg.clusterMax hmin hminmax
      cfg.totalCount.toNat (seedInit (cfg.seed + ⌊ambient * 1000000⌋)) cfg.totalCount
    have hmax : max cfg.totalCount 0 = (cfg.totalCount.toNat : ℤ) :=
      (Int.toNat_eq_max cfg.totalCount).symm
    rw [hmax] at hsum
    have hsum' : ((Berries.clusterCounts cfg.clusterMin cfg.clusterMax
        cfg.totalCount.toNat (seedInit (cfg.seed + ⌊ambient * 1000000⌋))
        cfg.totalCount).2.map Int.toNat).sum ≤ cfg.totalCount.toNat := by
      exact_mod_cast hsum
    omega

/-- Witness for C6 at the default berries configuration. -/
theorem placement_attempt_caps_witness :
    ((1 : ℤ) ≤ 4 ∧ (4 : ℤ) ≤ 6) ∧
    (Berries.reset (fun _ _ => 0) 1000 1000 ⟨777, 70, 4, 6, 14, 40, 9 / 5⟩ 0).length
      ≤ (70 : ℤ).toNat :=
  ⟨⟨by norm_num, by norm_num⟩,
    placement_attempt_caps.2.2.2 (fun _ _ => 0) 1000 1000 ⟨777, 70, 4, 6, 14, 40, 9 / 5⟩ 0
      (by norm_num) (by norm_num)⟩

/-! ## Terrain height synthesis (`Terrain.generateHeights`, `heightFn`,
`borderMountain`).

The 2D coherent noise function (`createNoise2D` from the external
`simplex-noise` package, seeded from `mulberry32(seed)`) is an external
collaborator and is modelled as an abstract function
`noise2D : ℝ → ℝ → ℝ`; simplex noise takes values in `[-1, 1]`. -/

/-- JS `Math.sign`. -/
noncomputable def jsSign (x : ℝ) : ℝ := if 0 < x then 1 else if x < 0 then -1 else 0

/-- `smoothstep(t) = t²(3 - 2t)`. -/
def smoothstep (t : ℝ) : ℝ := t * t * (3 - 2 * t)

/-- `borderMountain(x, z, width, depth, borderWidth, borderHeight)`: zero at
distance `≥ borderWidth` from the nearest world edge, else
`smoothstep(1 - distToEdge / borderWidth) * borderHeight`. -/
noncomputable def borderMountain (x z width depth borderWidth borderHeight : ℝ) : ℝ :=
  let halfW := width / 2
  let halfD := depth / 2
  let distToEdge := min (halfW - |x|) (halfD - |z|)
  if borderWidth ≤ distToEdge then 0
  else smoothstep (1 - distToEdge / borderWidth) * borderHeight

/-- `Terrain.heightFn`: five octaves of noise starting at frequency 0.0022
and amplitude 1, halving the amplitude and doubling the frequency each
octave (the source's `for (let i = 0; i < 5; i++)` is unrolled here — the
trip count is the constant 5), normalised by the amplitude sum, then shaped
by `sign(n) * |n|^1.35` and scaled by `maxHeight`. -/
noncomputable def heightFn (noise2D : ℝ → ℝ → ℝ) (x z maxHeight : ℝ) : ℝ :=
  let f0 : ℝ := 0.0022
  let n := noise2D (x * f0) (z * f0) * 1
    + noise2D (x * (f0 * 2)) (z * (f0 * 2)) * 0.5
    + noise2D (x * (f0 * 4)) (z * (f0 * 4)) * 0.25
    + noise2D (x * (f0 * 8)) (z * (f0 * 8)) * 0.125
    + noise2D (x * (f0 * 16)) (z * (f0 * 16)) * 0.0625
  let ampSum : ℝ := 1 + 0.5 + 0.25 + 0.125 + 0.0625
  let nn := n / ampSum
  jsSign nn * |nn| ^ (1.35 : ℝ) * maxHeight

/-- The world-space x coordinate of grid column `xi`:
`(x / (size - 1) - 0.5) * width`. -/
noncomputable def cellWorldX (cfg : TerrainConfig) (xi : ℕ) : ℝ :=
  ((xi : ℝ) / ((cfg.size : ℝ) - 1) - 0.5) * (cfg.width : ℝ)

/-- The world-space z coordinate of grid row `zi`. -/
noncomputable def cellWorldZ (cfg : TerrainConfig) (zi : ℕ) : ℝ :=
  ((zi : ℝ) / ((cfg.size : ℝ) - 1) - 0.5) * (cfg.depth : ℝ)

/-- The stored heightfield entry of cell `(xi, zi)` as computed by
`Terrain.generateHeights`: noise term plus border term. -/
noncomputable def storedHeight (noise2D : ℝ → ℝ → ℝ) (cfg : TerrainConfig)
    (xi zi : ℕ) : ℝ :=
  heightFn noise2D (cellWorldX cfg xi) (cellWorldZ cfg zi) (cfg.maxHeight : ℝ)
    + borderMountain (cellWorldX cfg xi) (cellWorldZ cfg zi) (cfg.width : ℝ)
        (cfg.depth : ℝ) (cfg.borderWidth : ℝ) (cfg.borderHeight : ℝ)

/-- The distance of cell `(xi, zi)` to the nearest world edge, as
`borderMountain` measures it. -/
noncomputable def distToEdgeCell (cfg : TerrainConfig) (xi zi : ℕ) : ℝ :=
  min ((cfg.width : ℝ) / 2 - |cellWorldX cfg xi|)
    ((cfg.depth : ℝ) / 2 - |cellWorldZ cfg zi|)

/-- The source's default `TerrainConfig`. -/
def terrainDefaults : TerrainConfig :=
  { size := 513, width := 1000, depth := 1000, maxHeight := 55, seed := 1337,
    borderWidth := 120, borderHeight := 140 }

open Classical in
/-- A valid noise instance (range `⊆ [-1, 1]`) separating the two
counterexample cells: `+1` on the grid column `x = 0`, `-1` elsewhere. -/
noncomputable def separatingNoise : ℝ → ℝ → ℝ := fun x _ => if x = 0 then 1 else -1

theorem separatingNoise_range (x z : ℝ) :
    -1 ≤ separatingNoise x z ∧ separatingNoise x z ≤ 1 := by
  unfold separatingNoise
  split
  · norm_num
  · norm_num

/-- **C10 (counterexample).** The stored height is noise term plus border
term, and the noise term (up to `±maxHeight = ±55`) dominates the border
increment between nearby cells, so the stored height is *not* non-
decreasing toward the edge.  With the default config and a valid noise
function: cell A = (455, 256) is closer to the edge (distance ≈ 111.33)
than cell B = (256, 454) (distance ≈ 113.28), both within
`borderWidth = 120`, yet `height(A) ≈ -52.9 < height(B) ≈ 56.3`. -/
theorem border_height_monotonicity_counterexample :
    distToEdgeCell terrainDefaults 455 256 < distToEdgeCell terrainDefaults 256 454 ∧
    distToEdgeCell terrainDefaults 256 454 < (terrainDefaults.borderWidth : ℝ) ∧
    storedHeight separatingNoise terrainDefaults 455 256
      < storedHeight separatingNoise terrainDefaults 256 454 := by
  classical
  have hwxA : cellWorldX terrainDefaults 455 = 24875 / 64 := by
    unfold cellWorldX terrainDefaults
    norm_num
  have hwzA : cellWorldZ terrainDefaults 256 = 0 := by
    unfold cellWorldZ terrainDefaults
    norm_num
  have hwxB : cellWorldX terrainDefaults 256 = 0 := by
    unfold cellWorldX terrainDefaults
    norm_num
  have hwzB : cellWorldZ terrainDefaults 454 = 12375 / 32 := by
    unfold cellWorldZ terrainDefaults
    norm_num
  refine ⟨?_, ?_, ?_⟩
  · unfold distToEdgeCell
    rw [hwxA, hwzA, hwxB, hwzB]
    rw [show |(24875 / 64 : ℝ)| = 24875 / 64 from abs_of_nonneg (by norm_num),
        show |(0 : ℝ)| = 0 from abs_zero,
        show |(12375 / 32 : ℝ)| = 12375 / 32 from abs_of_nonneg (by norm_num)]
    unfold terrainDefaults
    norm_num [min_def]
  · unfold distToEdgeCell
    rw [hwxB, hwzB]
    rw [show |(0 : ℝ)| = 0 from abs_zero,
        show |(12375 / 32 : ℝ)| = 12375 / 32 from abs_of_nonneg (by norm_num)]
    unfold terrainDefaults
    norm_num [min_def]
  · unfold storedHeight
    rw [hwxA, hwzA, hwxB, hwzB]
    have hnA : ∀ f : ℝ, f ≠ 0 → separatingNoise ((24875 / 64 : ℝ) * f) (0 * f) = -1 := by
      intro f hfne
      unfold separatingNoise
      rw [if_neg (by positivity)]
    have hnB : ∀ f : ℝ, separatingNoise ((0 : ℝ) * f) ((12375 / 32 : ℝ) * f) = 1 := by
      intro f
      unfold separatingNoise
      rw [if_pos (by ring)]
    unfold heightFn
    dsimp only
    rw [hnA 0.0022 (by norm_num), hnA (0.0022 * 2) (by norm_num),
        hnA (0.0022 * 4) (by norm_num), hnA (0.0022 * 8) (by norm_num),
        hnA (0.0022 * 16) (by norm_num),
        hnB 0.0022, hnB (0.0022 * 2), hnB (0.0022 * 4), hnB (0.0022 * 8),
        hnB (0.0022 * 16)]
    have hratA : ((-1 : ℝ) * 1 + -1 * 0.5 + -1 * 0.25 + -1 * 0.125 + -1 * 0.0625)
        / (1 + 0.5 + 0.25 + 0.125 + 0.0625) = -1 := by norm_num
    have hratB : ((1 : ℝ) * 1 + 1 * 0.5 + 1 * 0.25 + 1 * 0.125 + 1 * 0.0625)
        / (1 + 0.5 + 0.25 + 0.125 + 0.0625) = 1 := by norm_num
    rw [hratA, hratB]
    have hsA : jsSign (-1) * |(-1 : ℝ)| ^ (1.35 : ℝ) * ((terrainDefaults.maxHeight : ℚ) : ℝ)
        = -55 := by
      unfold jsSign terrainDefaults
      rw [if_neg (by norm_num), if_pos (by norm_num)]
      rw [abs_neg, abs_one, Real.one_rpow]
      norm_num
    have hsB : jsSign 1 * |(1 : ℝ)| ^ (1.35 : ℝ) * ((terrainDefaults.maxHeight : ℚ) : ℝ)
        = 55 := by
      unfold jsSign terrainDefaults
      rw [if_pos (by norm_num)]
      rw [abs_one, Real.one_rpow]
      norm_num
    rw [hsA, hsB]
    unfold borderMountain smoothstep
    dsimp only
    rw [show |(24875 / 64 : ℝ)| = 24875 / 64 from abs_of_nonneg (by norm_num),
        show |(0 : ℝ)| = 0 from abs_zero,
        show |(12375 / 32 : ℝ)| = 12375 / 32 from abs_of_nonneg (by norm_num)]
    unfold terrainDefaults
    norm_num [min_def]

theorem smoothstep_mono (a b : ℝ) (ha : 0 ≤ a) (hab : a ≤ b) (hb : b ≤ 1) :
    smoothstep a ≤ smoothstep b := by
  unfold smoothstep
  nlinarith [mul_nonneg (sub_nonneg.mpr hab) (mul_nonneg ha (sub_nonneg.mpr hb)),
    mul_nonneg (sub_nonneg.mpr hab) (sub_nonneg.mpr hb),
    mul_nonneg ha (le_trans ha hab), sq_nonneg (a - b), sq_nonneg (a + b)]

theorem smoothstep_nonneg (t : ℝ) (h0 : 0 ≤ t) (h1 : t ≤ 1) : 0 ≤ smoothstep t := by
  unfold smoothstep
  nlinarith

/-- **C10 (amended).** The border *term* of the stored height is
non-decreasing as the distance to the nearest edge decreases: for any two
positions whose edge distances satisfy `0 ≤ d(A) ≤ d(B)`, the border term
at A is at least the border term at B.  (The full stored height adds the
noise term, bounded by `±maxHeight`, which can dominate the border
increment between cells, so the total is not monotone — see the
counterexample.) -/
theorem borderMountain_monotone (x z x' z' width depth bw bh : ℝ)
    (hbw : 0 < bw) (hbh : 0 ≤ bh)
    (hd1 : 0 ≤ min (width / 2 - |x|) (depth / 2 - |z|))
    (hle : min (width / 2 - |x|) (depth / 2 - |z|)
      ≤ min (width / 2 - |x'|) (depth / 2 - |z'|)) :
    borderMountain x' z' width depth bw bh ≤ borderMountain x z width depth bw bh := by
  classical
  unfold borderMountain
  dsimp only
  set d1 := min (width / 2 - |x|) (depth / 2 - |z|) with hd1def
  set d2 := min (width / 2 - |x'|) (depth / 2 - |z'|) with hd2def
  by_cases h2 : bw ≤ d2
  · rw [if_pos h2]
    by_cases h1 : bw ≤ d1
    · rw [if_pos h1]
    · rw [if_neg h1]
      apply mul_nonneg _ hbh
      apply smoothstep_nonneg
      · have : d1 / bw ≤ 1 := by
          rw [div_le_one hbw]
          linarith [not_le.mp h1]
        linarith
      · have : 0 ≤ d1 / bw := div_nonneg hd1 (le_of_lt hbw)
        linarith
  · rw [if_neg h2]
    have h1 : ¬ bw ≤ d1 := by
      intro hcon
      exact h2 (le_trans hcon hle)
    rw [if_neg h1]
    apply mul_le_mul_of_nonneg_right _ hbh
    apply smoothstep_mono
    · have : d2 / bw ≤ 1 := by
        rw [div_le_one hbw]
        linarith [not_le.mp h2]
      linarith
    · have : d1 / bw ≤ d2 / bw := by gcongr
      linarith
    · have : 0 ≤ d1 / bw := div_nonneg hd1 (le_of_lt hbw)
      linarith

/-- Witness for the amended C10 at concrete positions (distances 20 and
100 from the edge of the default 1000×1000 world). -/
theorem borderMountain_monotone_witness :
    ((0 : ℝ) < 120 ∧ (0 : ℝ) ≤ 140 ∧
      0 ≤ min ((1000 : ℝ) / 2 - |(480 : ℝ)|) ((1000 : ℝ) / 2 - |(0 : ℝ)|) ∧
      min ((1000 : ℝ) / 2 - |(480 : ℝ)|) ((1000 : ℝ) / 2 - |(0 : ℝ)|)
        ≤ min ((1000 : ℝ) / 2 - |(400 : ℝ)|) ((1000 : ℝ) / 2 - |(0 : ℝ)|)) ∧
    borderMountain 400 0 1000 1000 120 140 ≤ borderMountain 480 0 1000 1000 120 140 := by
  have h1 : (0 : ℝ) < 120 := by norm_num
  have h2 : (0 : ℝ) ≤ 140 := by norm_num
  have h3 : 0 ≤ min ((1000 : ℝ) / 2 - |(480 : ℝ)|) ((1000 : ℝ) / 2 - |(0 : ℝ)|) := by
    norm_num [min_def, abs_of_nonneg]
  have h4 : min ((1000 : ℝ) / 2 - |(480 : ℝ)|) ((1000 : ℝ) / 2 - |(0 : ℝ)|)
      ≤ min ((1000 : ℝ) / 2 - |(400 : ℝ)|) ((1000 : ℝ) / 2 - |(0 : ℝ)|) := by
    norm_num [min_def, abs_of_nonneg]
  exact ⟨⟨h1, h2, h3, h4⟩, borderMountain_monotone 480 0 400 0 1000 1000 120 140 h1 h2 h3 h4⟩

end Doggo
